import Mathlib

/-!
Verification of the static-semantic-analysis stage of the jaf compiler
(`src/tools/ainedit/jaf_static_analysis.c`).

The C code is embedded shallowly: every function of the file is translated
into an executable Lean definition operating on an explicit `Ain`
(compilation-unit container) value.  Fatal `ERROR(...)` aborts and failing
`assert(...)` checks are modelled as `Except JafError` errors.  In-place tree
mutation is modelled by returning the updated tree nodes; the analyzer pass,
whose tree rewrites are consumed only by the later code generator, returns the
updated tables and scope environment and uses the simplified expressions
locally.  External collaborators that are not part of the analyzed source file
(the `ain_*` table operations, text encoding, and the expression
type-deriver/simplifier/checker) are modelled from the specification and are
marked `Modelled from the spec:` in their doc comments.
-/

/-- Type tags of the jaf front end (`enum jaf_type`): the cases handled by
`jaf_to_ain_data_type` plus the unresolved named-type tag `JAF_TYPEDEF`. -/
inductive JafTag where
  | void
  | int
  | float
  | string
  | struct
  | typedef
  | enum
deriving Repr, DecidableEq

/-- Data-type tags of the ain container (`enum ain_data_type`), restricted to
the tags producible by `jaf_to_ain_data_type`. -/
inductive AinDataType where
  | void
  | int
  | float
  | string
  | struct
deriving Repr, DecidableEq

/-- Fatal failures of the analysis: each `ERROR(...)` site of the source and
each failing `assert` / null dereference is mapped to one constructor. -/
inductive JafError where
  | anonymousNotSupported
  | duplicateDefinition
  | unresolvedTypedef (name : String)
  | unsupportedEnum
  | unknownType (tag : JafTag)
  | nestedFunctionsNotSupported
  | initvalNotConstant
  | typeMismatch
  | undefinedVariable (name : String)
  | unnamedParameter
  | assertionFailed
deriving Repr, DecidableEq

/-- Binary operators of the expression language (only the ones exercised by
the analyzed scenarios are represented). -/
inductive JafBinOp where
  | add
deriving Repr, DecidableEq

/-- Expression nodes (`struct jaf_expression`): literal int / float / string,
identifier reference and binary operation.  The float payload is carried as an
opaque bit pattern, no float arithmetic is modelled. -/
inductive JafExpression where
  | intLit (i : Int)
  | floatLit (bits : Nat)
  | strLit (s : String)
  | ident (name : String)
  | binary (op : JafBinOp) (lhs rhs : JafExpression)
deriving Repr, DecidableEq

/-- Resolved ain type of a variable or return value (`struct ain_type`):
data tag plus struct id (meaningful only for struct types). -/
structure AinType where
  data : AinDataType
  struc : Int
deriving Repr, DecidableEq

/-- Variable record of the ain container (`struct ain_variable`): name, the
version-gated secondary name, and the resolved type. -/
structure AinVariable where
  name : String
  name2 : Option String
  type : AinType
deriving Repr, DecidableEq

/-- Struct-table entry (`struct ain_struct`): name and ordered member list. -/
structure AinStruct where
  name : String
  members : List AinVariable
deriving Repr, DecidableEq

/-- Function-table entry (`struct ain_function`): name, return type, number of
formal arguments and the full variable list (arguments first). -/
structure AinFunction where
  name : String
  returnType : AinType
  nrArgs : Nat
  vars : List AinVariable
deriving Repr, DecidableEq

/-- Value payload of an initial-value record (`struct ain_initval`'s
`data_type` tag together with the active union member). -/
inductive InitvalData where
  | int (i : Int)
  | float (bits : Nat)
  | str (s : String)
deriving Repr, DecidableEq

/-- Data-type tag recorded by `jaf_to_initval` for each literal kind. -/
def InitvalData.dataType : InitvalData → AinDataType
  | .int _ => .int
  | .float _ => .float
  | .str _ => .string

/-- Initial-value record attached to a global slot. -/
structure AinInitval where
  globalIndex : Int
  data : InitvalData
deriving Repr, DecidableEq

/-- Compilation-unit container (`struct ain`): format version and the type /
function / global / initval tables. -/
structure Ain where
  version : Nat
  structures : List AinStruct
  functions : List AinFunction
  globals : List AinVariable
  initvals : List AinInitval
deriving Repr, DecidableEq

/-- Modelled from the spec: `encode_text_to_input_format` converts identifier
text to the container's encoding; text encoding is out of scope, so it is
modelled as the identity. -/
def encodeTextToInputFormat (s : String) : String := s

/-- Index of the first struct with the given name in a struct table. -/
def structIdx : List AinStruct → String → Option Nat
  | [], _ => none
  | s :: rest, n => if s.name = n then some 0 else (structIdx rest n).map (· + 1)

/-- Modelled from the spec: the container's struct-table lookup-by-name
(`ain_get_struct` / `ain_get_struct_no`), returning the struct's stable
numeric id when the name is registered. -/
def ainGetStructNo (ain : Ain) (n : String) : Option Nat :=
  structIdx ain.structures n

/-- Modelled from the spec: the container's struct-table insert
(`ain_add_struct`): registers an empty struct under the name and returns the
fresh id (the next free table index). -/
def ainAddStruct (ain : Ain) (n : String) : Ain × Nat :=
  ({ ain with structures := ain.structures ++ [{ name := n, members := [] }] },
   ain.structures.length)

/-- Modelled from the spec: the container's function-table
insert-and-return-index (`ain_add_function`). -/
def ainAddFunction (ain : Ain) (f : AinFunction) : Ain × Nat :=
  ({ ain with functions := ain.functions ++ [f] }, ain.functions.length)

/-- Modelled from the spec: the container's global-table
insert-and-return-index (`ain_add_global`); the new slot's type is
zero-initialised and filled in by the caller. -/
def ainAddGlobal (ain : Ain) (n : String) : Ain × Nat :=
  ({ ain with globals := ain.globals ++
      [{ name := n, name2 := none, type := { data := .void, struc := 0 } }] },
   ain.globals.length)

/-- Modelled from the spec: appending an initial-value record to the container
(`ain_add_initval`). -/
def ainAddInitval (ain : Ain) (iv : AinInitval) : Ain :=
  { ain with initvals := ain.initvals ++ [iv] }

/-- Replacement of the element at an index of a list (used for the in-place
member-list write of `resolve_decl_types` and the global-type write of
`add_global`). -/
def listModify {α : Type} (l : List α) (i : Nat) (f : α → α) : List α :=
  match l, i with
  | [], _ => []
  | x :: xs, 0 => f x :: xs
  | x :: xs, n + 1 => x :: listModify xs n f

/-- Translation `jaf_to_ain_data_type`: maps a front-end type tag to the ain
data tag; enums are unsupported and any tag without an ain encoding (in
particular a surviving `JAF_TYPEDEF`) hits the fatal default case. -/
def jafToAinDataType : JafTag → Except JafError AinDataType
  | .void => .ok .void
  | .int => .ok .int
  | .float => .ok .float
  | .string => .ok .string
  | .struct => .ok .struct
  | .enum => .error .unsupportedEnum
  | .typedef => .error (.unknownType .typedef)

mutual
/-- Type specifier (`struct jaf_type_specifier`): tag, optional name, optional
attached struct-member definition block and struct id. -/
inductive JafTypeSpec where
  | mk (tag : JafTag) (name : Option String) (sdef : Option (List JafBlockItem))
       (structNo : Int)
deriving Repr

/-- Declaration node (`struct jaf_declaration`): optional name, type
specifier, optional parameter list and body (functions), optional initializer
(variables), and the slot / function indices written back by the declaration
processor. -/
inductive JafDeclaration where
  | mk (name : Option String) (typeSpec : JafTypeSpec)
       (params : Option (List JafBlockItem)) (body : Option (List JafBlockItem))
       (dinit : Option JafExpression) (varNo : Int) (funcNo : Int)
deriving Repr

/-- Statement / block-item node (`struct jaf_block_item`), one constructor per
`enum block_item_kind` case handled by the analysis.  A `jaf_block` is the
item list itself. -/
inductive JafBlockItem where
  | declaration (d : JafDeclaration)
  | fundecl (d : JafDeclaration)
  | labeled (stmt : JafBlockItem)
  | compound (items : List JafBlockItem)
  | exprStmt (e : Option JafExpression)
  | ifStmt (test : Option JafExpression) (consequent alternative : JafBlockItem)
  | switchStmt (e : Option JafExpression) (body : List JafBlockItem)
  | whileStmt (test : Option JafExpression) (body : JafBlockItem)
  | doWhileStmt (test : Option JafExpression) (body : JafBlockItem)
  | forStmt (finit : List JafBlockItem) (test after : Option JafExpression)
            (body : JafBlockItem)
  | returnStmt (e : Option JafExpression)
  | caseStmt (e : Option JafExpression) (stmt : JafBlockItem)
  | defaultStmt (stmt : JafBlockItem)
  | gotoStmt
  | continueStmt
  | breakStmt
deriving Repr
end

/-- Tag of a type specifier. -/
def JafTypeSpec.tag : JafTypeSpec → JafTag
  | .mk t _ _ _ => t

/-- Name of a type specifier. -/
def JafTypeSpec.name : JafTypeSpec → Option String
  | .mk _ n _ _ => n

/-- Attached struct-definition block of a type specifier. -/
def JafTypeSpec.sdef : JafTypeSpec → Option (List JafBlockItem)
  | .mk _ _ d _ => d

/-- Struct id of a type specifier. -/
def JafTypeSpec.structNo : JafTypeSpec → Int
  | .mk _ _ _ s => s

/-- Name of a declaration. -/
def JafDeclaration.name : JafDeclaration → Option String
  | .mk n _ _ _ _ _ _ => n

/-- Type specifier of a declaration. -/
def JafDeclaration.typeSpec : JafDeclaration → JafTypeSpec
  | .mk _ t _ _ _ _ _ => t

/-- Parameter list of a function declaration. -/
def JafDeclaration.params : JafDeclaration → Option (List JafBlockItem)
  | .mk _ _ p _ _ _ _ => p

/-- Body of a function declaration. -/
def JafDeclaration.body : JafDeclaration → Option (List JafBlockItem)
  | .mk _ _ _ b _ _ _ => b

/-- Initializer of a variable declaration. -/
def JafDeclaration.dinit : JafDeclaration → Option JafExpression
  | .mk _ _ _ _ i _ _ => i

/-- Variable slot index recorded on a declaration. -/
def JafDeclaration.varNo : JafDeclaration → Int
  | .mk _ _ _ _ _ v _ => v

/-- Function index recorded on a declaration. -/
def JafDeclaration.funcNo : JafDeclaration → Int
  | .mk _ _ _ _ _ _ f => f

/-- Declaration with its variable slot index replaced (`decl->var_no = ...`). -/
def JafDeclaration.withVarNo : JafDeclaration → Int → JafDeclaration
  | .mk n t p b i _ f, v => .mk n t p b i v f

/-- Declaration with its function index replaced (`decl->func_no = ...`). -/
def JafDeclaration.withFuncNo : JafDeclaration → Int → JafDeclaration
  | .mk n t p b i v _, f => .mk n t p b i v f

/-- Declaration with its type specifier replaced (in-place mutation of
`decl->type` by `resolve_typedef`). -/
def JafDeclaration.withTypeSpec : JafDeclaration → JafTypeSpec → JafDeclaration
  | .mk n _ p b i v f, t => .mk n t p b i v f

/-- Translation `jaf_to_ain_type`: encodes a type specifier into an ain type;
the struct id is copied for struct tags, other tags leave the
zero-initialised id of the output record. -/
def jafToAinType (ts : JafTypeSpec) : Except JafError AinType := do
  let d ← jafToAinDataType ts.tag
  .ok { data := d, struc := if ts.tag = .struct then ts.structNo else 0 }

/-- Translation of `resolve_typedef`: looks the specifier's name up in the
struct table; on success the node is retagged as a struct reference carrying
the found id, otherwise analysis fails with an unresolved-typedef error.  A
specifier without a name would dereference a null pointer in the source. -/
def resolveTypedef (ain : Ain) (ts : JafTypeSpec) : Except JafError JafTypeSpec :=
  match ts with
  | .mk _tag name sdef _sno =>
    match name with
    | none => .error .assertionFailed
    | some n =>
        match ainGetStructNo ain (encodeTextToInputFormat n) with
        | some sno => .ok (.mk .struct (some n) sdef (Int.ofNat sno))
        | none => .error (.unresolvedTypedef n)

/-- Translation of `jaf_to_initval`: converts a (simplified) initializer
expression into an initial-value payload; only literal int / float / string
are constant, every other expression kind is a fatal error. -/
def jafToInitval : JafExpression → Except JafError InitvalData
  | .intLit i => .ok (.int i)
  | .floatLit bits => .ok (.float bits)
  | .strLit s => .ok (.str s)
  | _ => .error .initvalNotConstant

/-- Scope record (`struct jaf_env`): lexical parent, owning function index,
back reference to the enclosing function declaration and the ordered local
binding list (references into the owning function's variable list, modelled
by value). -/
inductive JafEnv where
  | mk (parent : Option JafEnv) (funcNo : Int) (fundecl : Option JafDeclaration)
       (locals : List AinVariable)

/-- Parent scope of an environment. -/
def JafEnv.parent : JafEnv → Option JafEnv
  | .mk p _ _ _ => p

/-- Owning function index of an environment. -/
def JafEnv.funcNo : JafEnv → Int
  | .mk _ f _ _ => f

/-- Enclosing function declaration of an environment. -/
def JafEnv.fundecl : JafEnv → Option JafDeclaration
  | .mk _ _ fd _ => fd

/-- Local binding list of an environment. -/
def JafEnv.locals : JafEnv → List AinVariable
  | .mk _ _ _ l => l

/-- Environment with its binding list replaced (in-place growth of
`env->locals`). -/
def JafEnv.withLocals : JafEnv → List AinVariable → JafEnv
  | .mk p f fd _, l => .mk p f fd l

/-- Most recent binding with the given name in a binding list. -/
def findVar (locals : List AinVariable) (n : String) : Option AinVariable :=
  match locals with
  | [] => none
  | v :: rest =>
      match findVar rest n with
      | some r => some r
      | none => if v.name = n then some v else none

/-- Modelled from the spec: variable lookup through the scope chain as used by
the external type deriver — the current binding list first (most recent
binding wins), then the lexical parent. -/
def envLookup : JafEnv → String → Option AinVariable
  | .mk parent _ _ locals, n =>
      match findVar locals n with
      | some v => some v
      | none =>
          match parent with
          | some p => envLookup p n
          | none => none

/-- Modelled from the spec: the external expression type deriver
(`jaf_derive_types`): derives the type of an expression bottom-up, resolving
identifiers through the scope chain; failures (unknown identifier, invalid
operand types) abort the analysis. -/
def jafDeriveTypes (env : JafEnv) : JafExpression → Except JafError AinDataType
  | .intLit _ => .ok .int
  | .floatLit _ => .ok .float
  | .strLit _ => .ok .string
  | .ident n =>
      match envLookup env n with
      | some v => .ok v.type.data
      | none => .error (.undefinedVariable n)
  | .binary .add l r => do
      let tl ← jafDeriveTypes env l
      let tr ← jafDeriveTypes env r
      if tl = .int ∧ tr = .int then .ok .int else .error .typeMismatch

/-- Modelled from the spec: the external constant folder (`jaf_simplify`):
replaces a fully constant expression by the equivalent literal and is the
identity on anything not foldable. -/
def jafSimplify : JafExpression → JafExpression
  | .binary .add l r =>
      match jafSimplify l, jafSimplify r with
      | .intLit a, .intLit b => .intLit (a + b)
      | l', r' => .binary .add l' r'
  | e => e

/-- Modelled from the spec: the external type checker (`jaf_check_type`):
checks a derived expression type against a declared type specifier and fails
with a type-mismatch error on disagreement. -/
def jafCheckType (env : JafEnv) (e : JafExpression) (ts : JafTypeSpec) :
    Except JafError Unit := do
  let t ← jafDeriveTypes env e
  let expected ← jafToAinDataType ts.tag
  if t = expected then .ok () else .error .typeMismatch

mutual
/-- Translation of `jaf_define_struct`: rejects anonymous structs, fails when
the name is already registered, otherwise reserves the name under a fresh id
(written into the specifier's `struct_no`) and only then walks the member
declaration list so that struct types declared inside it are defined in the
same pass.  A missing member block would dereference a null pointer in the
source. -/
def jafDefineStruct (ain : Ain) (ts : JafTypeSpec) :
    Except JafError (Ain × JafTypeSpec) :=
  match ts with
  | .mk tag name sdef _sno =>
    match name with
    | none => .error .anonymousNotSupported
    | some n =>
        if (ainGetStructNo ain (encodeTextToInputFormat n)).isSome then
          .error .duplicateDefinition
        else
          let (ain1, sno) := ainAddStruct ain (encodeTextToInputFormat n)
          match sdef with
          | none => .error .assertionFailed
          | some items => do
              let (ain2, items') ← defineTypesList ain1 items
              .ok (ain2, .mk tag name (some items') (Int.ofNat sno))

/-- Translation of `define_types`: a member item whose declaration carries a
struct type specifier triggers a nested struct definition; the declaration
union member is active for declaration and function-declaration items, any
other kind would read an inactive union field (modelled as a fatal error). -/
def defineTypes (ain : Ain) : JafBlockItem → Except JafError (Ain × JafBlockItem)
  | .declaration (.mk dn dts dps db di dv df) =>
      if dts.tag = .struct then do
        let (a, ts') ← jafDefineStruct ain dts
        .ok (a, .declaration (.mk dn ts' dps db di dv df))
      else .ok (ain, .declaration (.mk dn dts dps db di dv df))
  | .fundecl (.mk dn dts dps db di dv df) =>
      if dts.tag = .struct then do
        let (a, ts') ← jafDefineStruct ain dts
        .ok (a, .fundecl (.mk dn ts' dps db di dv df))
      else .ok (ain, .fundecl (.mk dn dts dps db di dv df))
  | _ => .error .assertionFailed

/-- Iteration of `define_types` over the member items of a struct definition
(the loop inside `jaf_define_struct`). -/
def defineTypesList (ain : Ain) : List JafBlockItem →
    Except JafError (Ain × List JafBlockItem)
  | [] => .ok (ain, [])
  | item :: rest => do
      let (a1, item') ← defineTypes ain item
      let (a2, rest') ← defineTypesList a1 rest
      .ok (a2, item' :: rest')
end

/-- Member-building loop of `resolve_decl_types`: each member item's
declaration yields name, version-gated secondary name and the concrete ain
encoding of its type.  A nameless member would dereference a null pointer;
items of other statement kinds would read an inactive union field. -/
def buildMembers (ain : Ain) : List JafBlockItem → Except JafError (List AinVariable)
  | [] => .ok []
  | item :: rest =>
      match item with
      | .declaration d | .fundecl d =>
          match d.name with
          | none => .error .assertionFailed
          | some n => do
              let ty ← jafToAinType d.typeSpec
              let ms ← buildMembers ain rest
              .ok ({ name := encodeTextToInputFormat n,
                     name2 := if ain.version ≥ 12 then some ("") else none,
                     type := ty } :: ms)
      | _ => .error .assertionFailed

/-- Translation of `resolve_decl_types`: resolves a typedef-tagged declared
type through the struct table, then, for a struct declaration carrying a
member block, computes the concrete member list and writes it onto the
struct's type-table entry (the struct id must already be set, asserted in the
source as established during parsing). -/
def resolveDeclTypes (ain : Ain) (decl : JafDeclaration) :
    Except JafError (Ain × JafDeclaration) := do
  let decl ←
    if decl.typeSpec.tag = .typedef then do
      let ts ← resolveTypedef ain decl.typeSpec
      pure (decl.withTypeSpec ts)
    else pure decl
  if decl.typeSpec.tag ≠ .struct then .ok (ain, decl)
  else
    match decl.typeSpec.sdef with
    | none => .ok (ain, decl)
    | some defItems =>
        if _hs : 0 ≤ decl.typeSpec.structNo ∧
            decl.typeSpec.structNo.toNat < ain.structures.length then do
          let members ← buildMembers ain defItems
          let newStructs := listModify ain.structures decl.typeSpec.structNo.toNat
            (fun s => { s with members := members })
          .ok ({ ain with structures := newStructs }, decl)
        else .error .assertionFailed

mutual
/-- Translation of `resolve_statement_types`: recursion of the type-resolver
pass over one statement, descending into every nested block-structured
construct.  A function declaration's missing body would dereference a null
pointer in the source. -/
def resolveStatementTypes (ain : Ain) : JafBlockItem →
    Except JafError (Ain × JafBlockItem)
  | .declaration d => do
      let (a, d') ← resolveDeclTypes ain d
      .ok (a, .declaration d')
  | .fundecl (.mk dn dts dps db di dv df) => do
      let pr ←
        match dps with
        | some ps => do
            let (a, ps') ← jafResolveTypes ain ps
            pure (a, some ps')
        | none => pure (ain, (none : Option (List JafBlockItem)))
      match db with
      | none => .error .assertionFailed
      | some bs => do
          let (a2, bs') ← jafResolveTypes pr.1 bs
          .ok (a2, .fundecl (.mk dn dts pr.2 (some bs') di dv df))
  | .labeled s => do
      let (a, s') ← resolveStatementTypes ain s
      .ok (a, .labeled s')
  | .compound items => do
      let (a, items') ← jafResolveTypes ain items
      .ok (a, .compound items')
  | .ifStmt t c alt => do
      let (a1, c') ← resolveStatementTypes ain c
      let (a2, alt') ← resolveStatementTypes a1 alt
      .ok (a2, .ifStmt t c' alt')
  | .switchStmt e body => do
      let (a, body') ← jafResolveTypes ain body
      .ok (a, .switchStmt e body')
  | .whileStmt t body => do
      let (a, b') ← resolveStatementTypes ain body
      .ok (a, .whileStmt t b')
  | .doWhileStmt t body => do
      let (a, b') ← resolveStatementTypes ain body
      .ok (a, .doWhileStmt t b')
  | .forStmt finit t aft body => do
      let (a1, finit') ← jafResolveTypes ain finit
      let (a2, b') ← resolveStatementTypes a1 body
      .ok (a2, .forStmt finit' t aft b')
  | .caseStmt e s => do
      let (a, s') ← resolveStatementTypes ain s
      .ok (a, .caseStmt e s')
  | .defaultStmt s => do
      let (a, s') ← resolveStatementTypes ain s
      .ok (a, .defaultStmt s')
  | .exprStmt e => .ok (ain, .exprStmt e)
  | .gotoStmt => .ok (ain, .gotoStmt)
  | .continueStmt => .ok (ain, .continueStmt)
  | .breakStmt => .ok (ain, .breakStmt)
  | .returnStmt e => .ok (ain, .returnStmt e)

/-- Translation of `jaf_resolve_types`: the resolver pass over a block's item
list. -/
def jafResolveTypes (ain : Ain) : List JafBlockItem →
    Except JafError (Ain × List JafBlockItem)
  | [] => .ok (ain, [])
  | item :: rest => do
      let (a1, item') ← resolveStatementTypes ain item
      let (a2, rest') ← jafResolveTypes a1 rest
      .ok (a2, item' :: rest')
end

/-- Translation of `init_variable`: builds a variable record from a named
declaration (name, version-gated secondary name, encoded type) and writes the
assigned slot index back onto the declaration node. -/
def initVariable (ain : Ain) (decl : JafDeclaration) (varNo : Int) :
    Except JafError (AinVariable × JafDeclaration) :=
  match decl.name with
  | none => .error .assertionFailed
  | some n => do
      let ty ← jafToAinType decl.typeSpec
      .ok ({ name := encodeTextToInputFormat n,
             name2 := if ain.version ≥ 12 then some ("") else none,
             type := ty }, decl.withVarNo varNo)

mutual
/-- Translation of `block_item_get_vars`: local-variable collection over one
statement.  A named declaration is appended to the variable list and receives
the next slot index; the walk descends into every nested statement form, and
a nested function declaration is a fatal error. -/
def blockItemGetVars (ain : Ain) (vars : List AinVariable) : JafBlockItem →
    Except JafError (List AinVariable × JafBlockItem)
  | .declaration d =>
      match d.name with
      | none => .ok (vars, .declaration d)
      | some _ => do
          let (v, d') ← initVariable ain d (Int.ofNat vars.length)
          .ok (vars ++ [v], .declaration d')
  | .labeled s => do
      let (v, s') ← blockItemGetVars ain vars s
      .ok (v,.labeled s')
  | .compound items => do
      let (v, items') ← blockGetVars ain vars items
      .ok (v, .compound items')
  | .ifStmt t c alt => do
      let (v1, c') ← blockItemGetVars ain vars c
      let (v2, alt') ← blockItemGetVars ain v1 alt
      .ok (v2, .ifStmt t c' alt')
  | .switchStmt e body => do
      let (v, body') ← blockGetVars ain vars body
      .ok (v, .switchStmt e body')
  | .whileStmt t body => do
      let (v, b') ← blockItemGetVars ain vars body
      .ok (v, .whileStmt t b')
  | .doWhileStmt t body => do
      let (v, b') ← blockItemGetVars ain vars body
      .ok (v, .doWhileStmt t b')
  | .forStmt finit t aft body => do
      let (v1, finit') ← blockGetVars ain vars finit
      let (v2, b') ← blockItemGetVars ain v1 body
      .ok (v2, .forStmt finit' t aft b')
  | .caseStmt e s => do
      let (v, s') ← blockItemGetVars ain vars s
      .ok (v, .caseStmt e s')
  | .defaultStmt s => do
      let (v, s') ← blockItemGetVars ain vars s
      .ok (v, .defaultStmt s')
  | .exprStmt e => .ok (vars, .exprStmt e)
  | .gotoStmt => .ok (vars, .gotoStmt)
  | .continueStmt => .ok (vars, .continueStmt)
  | .breakStmt => .ok (vars, .breakStmt)
  | .returnStmt e => .ok (vars, .returnStmt e)
  | .fundecl _ => .error .nestedFunctionsNotSupported

/-- Translation of `block_get_vars`: local-variable collection over a block's
item list. -/
def blockGetVars (ain : Ain) (vars : List AinVariable) : List JafBlockItem →
    Except JafError (List AinVariable × List JafBlockItem)
  | [] => .ok (vars, [])
  | item :: rest => do
      let (v1, item') ← blockItemGetVars ain vars item
      let (v2, rest') ← blockGetVars ain v1 rest
      .ok (v2, item' :: rest')
end

/-- Parameter loop of `function_init_vars`: the i-th formal parameter must be
a named declaration (both asserted in the source) and becomes variable slot
i. -/
def paramInitVars (ain : Ain) (idx : Nat) : List JafBlockItem →
    Except JafError (List AinVariable × List JafBlockItem)
  | [] => .ok ([], [])
  | .declaration d :: rest =>
      match d.name with
      | none => .error .unnamedParameter
      | some _ => do
          let (v, d') ← initVariable ain d (Int.ofNat idx)
          let (vs, rest') ← paramInitVars ain (idx + 1) rest
          .ok (v :: vs, .declaration d' :: rest')
  | _ :: _ => .error .assertionFailed

/-- Translation of `function_init_vars`: the function's variable list is the
formal parameters (slots 0 .. nr_args-1, in order) followed by every local
collected from the body walk, each assigned the next slot index. -/
def functionInitVars (ain : Ain) (f : AinFunction) (decl : JafDeclaration) :
    Except JafError (AinFunction × JafDeclaration) :=
  match decl with
  | .mk dn dts dps db di dv df => do
      let paramItems := dps.getD []
      let (argVars, params') ← paramInitVars ain 0 paramItems
      match db with
      | none => .error .assertionFailed
      | some bodyItems => do
          let (vars, body') ← blockGetVars ain argVars bodyItems
          .ok ({ f with nrArgs := paramItems.length, vars := vars },
               .mk dn dts (dps.map (fun _ => params')) (some body') di dv df)

/-- Translation of `add_function`: encodes the return type, computes the
variable list, registers the function and records the assigned index on the
declaration node. -/
def addFunction (ain : Ain) (decl : JafDeclaration) :
    Except JafError (Ain × JafDeclaration) :=
  match decl.name with
  | none => .error .assertionFailed
  | some n => do
      let rt ← jafToAinType decl.typeSpec
      let f0 : AinFunction := { name := n, returnType := rt, nrArgs := 0, vars := [] }
      let (f, decl1) ← functionInitVars ain f0 decl
      let (ain1, idx) := ainAddFunction ain f
      .ok (ain1, decl1.withFuncNo (Int.ofNat idx))

/-- Translation of `add_global`: registers the global, encodes its type onto
the new slot and records the assigned slot index on the declaration node. -/
def addGlobal (ain : Ain) (decl : JafDeclaration) :
    Except JafError (Ain × JafDeclaration) :=
  match decl.name with
  | none => .error .assertionFailed
  | some n => do
      let (ain1, idx) := ainAddGlobal ain (encodeTextToInputFormat n)
      let ty ← jafToAinType decl.typeSpec
      .ok ({ ain1 with globals :=
              listModify ain1.globals idx (fun v => { v with type := ty }) },
           decl.withVarNo (Int.ofNat idx))

/-- Translation of `jaf_process_declarations`: every named top-level function
declaration is registered in the function table, every other named top-level
declaration in the global table; unnamed items are skipped.  The grammar
produces only declarations at the top level; for any other statement kind the
source would test an inactive union field, modelled as the skip branch. -/
def jafProcessDeclarations (ain : Ain) : List JafBlockItem →
    Except JafError (Ain × List JafBlockItem)
  | [] => .ok (ain, [])
  | item :: rest =>
      match item with
      | .fundecl d =>
          match d.name with
          | some _ => do
              let (a1, d') ← addFunction ain d
              let (a2, rest') ← jafProcessDeclarations a1 rest
              .ok (a2, .fundecl d' :: rest')
          | none => do
              let (a2, rest') ← jafProcessDeclarations ain rest
              .ok (a2, item :: rest')
      | .declaration d =>
          match d.name with
          | some _ => do
              let (a1, d') ← addGlobal ain d
              let (a2, rest') ← jafProcessDeclarations a1 rest
              .ok (a2, .declaration d' :: rest')
          | none => do
              let (a2, rest') ← jafProcessDeclarations ain rest
              .ok (a2, item :: rest')
      | _ => do
          let (a2, rest') ← jafProcessDeclarations ain rest
          .ok (a2, item :: rest')

/-- Core of `analyze_expression` for a present expression: derive its type
(failures abort), then replace it by its constant-folded form. -/
def analyzeExpressionCore (env : JafEnv) (e : JafExpression) :
    Except JafError JafExpression := do
  let _ ← jafDeriveTypes env e
  .ok (jafSimplify e)

/-- Translation of `analyze_expression`: a null expression is left untouched,
otherwise the expression is derived and simplified in place. -/
def analyzeExpression (env : JafEnv) : Option JafExpression →
    Except JafError (Option JafExpression)
  | none => .ok none
  | some e => do
      let e' ← analyzeExpressionCore env e
      .ok (some e')

/-- Translation of `analyze_global_declaration`: a global declaration without
an initializer is skipped; otherwise the initializer is analyzed (derived and
folded), checked against the declared type, converted to an initial-value
record and attached under the global's slot index. -/
def analyzeGlobalDeclaration (ain : Ain) (env : JafEnv) (decl : JafDeclaration) :
    Except JafError (Ain × JafEnv) :=
  match decl.dinit with
  | none => .ok (ain, env)
  | some e => do
      let e' ← analyzeExpressionCore env e
      let _ ← jafCheckType env e' decl.typeSpec
      let data ← jafToInitval e'
      .ok (ainAddInitval ain { globalIndex := decl.varNo, data := data }, env)

/-- Translation of `analyze_local_declaration`: the source asserts that the
environment's function index and the declaration's slot index are in range,
then appends the owning function's variable for that slot to the current
binding list. -/
def analyzeLocalDeclaration (ain : Ain) (env : JafEnv) (decl : JafDeclaration) :
    Except JafError (Ain × JafEnv) :=
  if h : 0 ≤ env.funcNo ∧ env.funcNo.toNat < ain.functions.length then
    let fn := ain.functions.get ⟨env.funcNo.toNat, h.2⟩
    if h2 : 0 ≤ decl.varNo ∧ decl.varNo.toNat < fn.vars.length then
      .ok (ain, env.withLocals (env.locals ++ [fn.vars.get ⟨decl.varNo.toNat, h2.2⟩]))
    else .error .assertionFailed
  else .error .assertionFailed

mutual
/-- Translation of `analyze_function`: creates a function environment seeded
with the function's parameter bindings (references into the registered
variable list), analyzes the body under it and discards it; the tables
mutated during body analysis persist, the outer environment is returned
unchanged.  The source asserts the function index is in table range, and a
missing body would dereference a null pointer. -/
def analyzeFunction (ain : Ain) (env : JafEnv) (decl : JafDeclaration) :
    Except JafError (Ain × JafEnv) :=
  match decl with
  | .mk dn dts dps db di dv df =>
    if h : 0 ≤ df ∧ df.toNat < ain.functions.length then
      let fn := ain.functions.get ⟨df.toNat, h.2⟩
      let funenv : JafEnv :=
        .mk (some env) df (some (.mk dn dts dps db di dv df))
            (fn.vars.take fn.nrArgs)
      match db with
      | none => .error .assertionFailed
      | some items => do
          let (ain1, _) ← jafAnalyzeBlock ain funenv items
          .ok (ain1, env)
    else .error .assertionFailed

/-- Translation of `analyze_statement`: per-statement dispatch of the
analyzer.  Declarations at global scope produce initial values, at local
scope they extend the current binding list; nested blocks are analyzed in a
child environment; return statements are checked against the enclosing
function's declared return type.  The child-environment push and discard of
`analyze_block` is written out at each of its three call sites (compound
statements, switch bodies, for-loop init blocks); `analyzeBlock` below
packages it and agrees definitionally with each site. -/
def analyzeStatement (ain : Ain) (env : JafEnv) : JafBlockItem →
    Except JafError (Ain × JafEnv)
  | .declaration d =>
      match env.parent with
      | some _ => analyzeLocalDeclaration ain env d
      | none => analyzeGlobalDeclaration ain env d
  | .fundecl d => analyzeFunction ain env d
  | .labeled s => analyzeStatement ain env s
  | .compound items => do
      let (ain1, _) ← jafAnalyzeBlock ain (.mk (some env) env.funcNo env.fundecl []) items
      .ok (ain1, env)
  | .exprStmt e => do
      let _ ← analyzeExpression env e
      .ok (ain, env)
  | .ifStmt test c alt => do
      let _ ← analyzeExpression env test
      let (ain1, env1) ← analyzeStatement ain env c
      analyzeStatement ain1 env1 alt
  | .switchStmt e body => do
      let _ ← analyzeExpression env e
      let (ain1, _) ← jafAnalyzeBlock ain (.mk (some env) env.funcNo env.fundecl []) body
      .ok (ain1, env)
  | .whileStmt test body => do
      let _ ← analyzeExpression env test
      analyzeStatement ain env body
  | .doWhileStmt test body => do
      let _ ← analyzeExpression env test
      analyzeStatement ain env body
  | .forStmt finit test aft body => do
      let (ain1, env1) ← (do
        let (a, _) ← jafAnalyzeBlock ain (.mk (some env) env.funcNo env.fundecl []) finit
        .ok (a, env) : Except JafError (Ain × JafEnv))
      let _ ← analyzeExpression env1 test
      let _ ← analyzeExpression env1 aft
      analyzeStatement ain1 env1 body
  | .returnStmt e => do
      let e' ← analyzeExpression env e
      match env.fundecl with
      | none => .error .assertionFailed
      | some fd =>
          match e' with
          | some ex => do
              let _ ← jafCheckType env ex fd.typeSpec
              .ok (ain, env)
          | none => .error .assertionFailed
  | .caseStmt _ s => analyzeStatement ain env s
  | .defaultStmt s => analyzeStatement ain env s
  | .gotoStmt => .ok (ain, env)
  | .continueStmt => .ok (ain, env)
  | .breakStmt => .ok (ain, env)

/-- Translation of `jaf_analyze_block`: the analyzer over a block's item list
in the given environment (the environment threads through because local
declarations extend its binding list in place). -/
def jafAnalyzeBlock (ain : Ain) (env : JafEnv) : List JafBlockItem →
    Except JafError (Ain × JafEnv)
  | [] => .ok (ain, env)
  | item :: rest => do
      let (ain1, env1) ← analyzeStatement ain env item
      jafAnalyzeBlock ain1 env1 rest
end

/-- Translation of `analyze_block`: pushes a fresh child environment (same
function, empty binding list), analyzes the items under it and discards it on
exit, returning the outer environment unchanged. -/
def analyzeBlock (ain : Ain) (env : JafEnv) (items : List JafBlockItem) :
    Except JafError (Ain × JafEnv) := do
  let (ain1, _) ← jafAnalyzeBlock ain (.mk (some env) env.funcNo env.fundecl []) items
  .ok (ain1, env)

/-- Translation of `jaf_static_analyze`: the three sequential passes — type
resolution, declaration processing, and expression/statement analysis under
the global environment. -/
def jafStaticAnalyze (ain : Ain) (block : List JafBlockItem) :
    Except JafError (Ain × List JafBlockItem) := do
  let env : JafEnv := .mk none 0 none []
  let (ain1, block1) ← jafResolveTypes ain block
  let (ain2, block2) ← jafProcessDeclarations ain1 block1
  let (ain3, _) ← jafAnalyzeBlock ain2 env block2
  .ok (ain3, block2)

/-- List of the integers `s, s+1, ..., s+k-1`, used to state that slot
indices are assigned consecutively. -/
def natRangeI : Nat → Nat → List Int
  | _, 0 => []
  | s, k + 1 => Int.ofNat s :: natRangeI (s + 1) k

/-- Names registered in the struct table, in id order. -/
def structNames (ain : Ain) : List String :=
  ain.structures.map AinStruct.name

/-- Whether a type specifier's tag has an ain encoding (so that
`jaf_to_ain_type` succeeds on it). -/
def typeEncodable (ts : JafTypeSpec) : Bool :=
  match jafToAinDataType ts.tag with
  | .ok _ => true
  | .error _ => false

mutual
/-- Slot indices recorded on the named variable declarations of a statement,
in the traversal order of `block_item_get_vars`. -/
def declVarNosItem : JafBlockItem → List Int
  | .declaration d =>
      match d.name with
      | none => []
      | some _ => [d.varNo]
  | .labeled s => declVarNosItem s
  | .compound items => declVarNosList items
  | .ifStmt _ c alt => declVarNosItem c ++ declVarNosItem alt
  | .switchStmt _ body => declVarNosList body
  | .whileStmt _ body => declVarNosItem body
  | .doWhileStmt _ body => declVarNosItem body
  | .forStmt finit _ _ body => declVarNosList finit ++ declVarNosItem body
  | .caseStmt _ s => declVarNosItem s
  | .defaultStmt s => declVarNosItem s
  | _ => []

/-- Slot indices recorded on the named variable declarations of a block, in
traversal order. -/
def declVarNosList : List JafBlockItem → List Int
  | [] => []
  | item :: rest => declVarNosItem item ++ declVarNosList rest
end

mutual
/-- Whether a statement contains a function declaration at any depth
reachable by the `block_item_get_vars` traversal. -/
def itemHasFunDecl : JafBlockItem → Bool
  | .fundecl _ => true
  | .labeled s => itemHasFunDecl s
  | .compound items => listHasFunDecl items
  | .ifStmt _ c alt => itemHasFunDecl c || itemHasFunDecl alt
  | .switchStmt _ body => listHasFunDecl body
  | .whileStmt _ body => itemHasFunDecl body
  | .doWhileStmt _ body => itemHasFunDecl body
  | .forStmt finit _ _ body => listHasFunDecl finit || itemHasFunDecl body
  | .caseStmt _ s => itemHasFunDecl s
  | .defaultStmt s => itemHasFunDecl s
  | _ => false

/-- Whether a block contains a function declaration at any reachable depth. -/
def listHasFunDecl : List JafBlockItem → Bool
  | [] => false
  | item :: rest => itemHasFunDecl item || listHasFunDecl rest
end

mutual
/-- Whether every named variable declaration reachable by the
`block_item_get_vars` traversal carries an ain-encodable type (so that
collecting it cannot fail for a reason other than a nested function). -/
def itemDeclsOk : JafBlockItem → Bool
  | .declaration d =>
      match d.name with
      | none => true
      | some _ => typeEncodable d.typeSpec
  | .labeled s => itemDeclsOk s
  | .compound items => listDeclsOk items
  | .ifStmt _ c alt => itemDeclsOk c && itemDeclsOk alt
  | .switchStmt _ body => listDeclsOk body
  | .whileStmt _ body => itemDeclsOk body
  | .doWhileStmt _ body => itemDeclsOk body
  | .forStmt finit _ _ body => listDeclsOk finit && itemDeclsOk body
  | .caseStmt _ s => itemDeclsOk s
  | .defaultStmt s => itemDeclsOk s
  | _ => true

/-- Block version of `itemDeclsOk`. -/
def listDeclsOk : List JafBlockItem → Bool
  | [] => true
  | item :: rest => itemDeclsOk item && listDeclsOk rest
end

/-- Whether a parameter item is a named declaration with an encodable type
(the shape `function_init_vars` accepts without a fatal error). -/
def paramItemOk : JafBlockItem → Bool
  | .declaration d => d.name.isSome && typeEncodable d.typeSpec
  | _ => false

/-- Whether every item of a parameter list is acceptable. -/
def paramsOk (items : List JafBlockItem) : Bool :=
  items.all paramItemOk

/-- Empty compilation unit used by the concrete scenarios (format version
below 12, so no secondary name fields). -/
def ainEmpty : Ain :=
  { version := 4, structures := [], functions := [], globals := [], initvals := [] }

/-- Global environment value as built by `jaf_static_analyze` (no parent, no
enclosing function). -/
def envGlobal : JafEnv := .mk none 0 none []

/-- Top-level declaration `int x = 1 + 2;`. -/
def xDecl : JafDeclaration :=
  .mk (some ("x")) (.mk .int none none 0) none none
      (some (.binary .add (.intLit 1) (.intLit 2))) (-1) (-1)

/-- Type specifier of `struct S { int a; S next; }`: the second member names
the struct being defined through an unresolved typedef reference. -/
def sSpec : JafTypeSpec :=
  .mk .struct (some ("S"))
    (some [.declaration (.mk (some ("a")) (.mk .int none none 0) none none none (-1) (-1)),
           .declaration (.mk (some ("next")) (.mk .typedef (some ("S")) none (-1))
                            none none none (-1) (-1))])
    (-1)

/-- Type specifier of `struct T { struct U { } u; }`: a struct type declared
inside the member list. -/
def tSpec : JafTypeSpec :=
  .mk .struct (some ("T"))
    (some [.declaration (.mk (some ("u")) (.mk .struct (some ("U")) (some []) (-1))
                            none none none (-1) (-1))])
    (-1)

/-- Compilation unit holding one function `g` whose variable list has the
single slot 0 named `i` (of type int). -/
def ainOneFunc : Ain :=
  { version := 4, structures := [],
    functions := [{ name := ("g"), returnType := { data := .void, struc := 0 },
                    nrArgs := 0,
                    vars := [{ name := ("i"), name2 := none,
                               type := { data := .int, struc := 0 } }] }],
    globals := [], initvals := [] }

/-- Environment of function 0 of `ainOneFunc` with no bindings yet. -/
def envFunc0 : JafEnv := .mk (some envGlobal) 0 none []

/-- Local declaration of `int i` owning slot 0. -/
def iDecl : JafDeclaration :=
  .mk (some ("i")) (.mk .int none none 0) none none none 0 (-1)

/-- Declaration of `string f(int n) { return n; }`: the returned expression
has type int while the declared return type is string. -/
def fDeclString : JafDeclaration :=
  .mk (some ("f")) (.mk .string none none 0)
      (some [.declaration (.mk (some ("n")) (.mk .int none none 0) none none none (-1) (-1))])
      (some [.returnStmt (some (.ident ("n")))])
      none (-1) (-1)

/-! Helper lemmas about the embedded definitions. -/

@[simp] theorem exceptBind_ok {α β : Type} (a : α) (f : α → Except JafError β) :
    (Except.ok a : Except JafError α) >>= f = f a := rfl

@[simp] theorem exceptBind_error {α β : Type} (er : JafError)
    (f : α → Except JafError β) :
    (Except.error er : Except JafError α) >>= f = Except.error er := rfl

@[simp] theorem withVarNo_name (d : JafDeclaration) (k : Int) :
    (d.withVarNo k).name = d.name := by
  cases d; rfl

@[simp] theorem withVarNo_varNo (d : JafDeclaration) (k : Int) :
    (d.withVarNo k).varNo = k := by
  cases d; rfl

@[simp] theorem withVarNo_typeSpec (d : JafDeclaration) (k : Int) :
    (d.withVarNo k).typeSpec = d.typeSpec := by
  cases d; rfl

theorem jafDeriveTypes_simplify (env : JafEnv) :
    ∀ e, jafDeriveTypes env (jafSimplify e) = jafDeriveTypes env e := by
  intro e
  induction e with
  | intLit i => rfl
  | floatLit b => rfl
  | strLit s => rfl
  | ident n => rfl
  | binary op l r ihl ihr =>
      cases op
      conv_rhs => rw [jafDeriveTypes]
      rw [jafSimplify, ← ihl, ← ihr]
      generalize jafSimplify l = X
      generalize jafSimplify r = Y
      cases X <;> cases Y <;> rfl

/-- C4: for a type reference tagged as an unresolved named type,
`resolve_typedef` looks the name up in the type table: if a struct with that
name exists, the reference is retagged as a struct reference carrying that
struct's id; if none exists, analysis fails with an unresolved-typedef error
naming the type. -/
theorem claimC4 (ain : Ain) (ts : JafTypeSpec) (n : String) (h : ts.name = some n) :
    (∀ sno, ainGetStructNo ain (encodeTextToInputFormat n) = some sno →
        resolveTypedef ain ts = .ok (.mk .struct (some n) ts.sdef (Int.ofNat sno))) ∧
    (ainGetStructNo ain (encodeTextToInputFormat n) = none →
        resolveTypedef ain ts = .error (.unresolvedTypedef n)) := by
  cases ts with
  | mk tag name sdef sno0 =>
    simp only [JafTypeSpec.name] at h
    subst h
    constructor
    · intro sno hs
      simp [resolveTypedef, hs, JafTypeSpec.sdef]
    · intro hs
      simp [resolveTypedef, hs]

/-- Witness for C4: resolving the typedef `S` against a table containing `S`
retags it as struct 0; resolving it against the empty table fails with the
unresolved-typedef error naming `S`. -/
theorem claimC4_witness :
    resolveTypedef { version := 4, structures := [{ name := ("S"), members := [] }],
                     functions := [], globals := [], initvals := [] }
        (.mk .typedef (some ("S")) none (-1)) =
      .ok (.mk .struct (some ("S")) none 0) ∧
    resolveTypedef ainEmpty (.mk .typedef (some ("S")) none (-1)) =
      .error (.unresolvedTypedef ("S")) := by
  constructor
  · exact (claimC4 { version := 4, structures := [{ name := ("S"), members := [] }],
                     functions := [], globals := [], initvals := [] }
        (.mk .typedef (some ("S")) none (-1)) ("S") rfl).1 0 rfl
  · exact (claimC4 ainEmpty (.mk .typedef (some ("S")) none (-1)) ("S") rfl).2 rfl

/-- C6: analyzing the top-level declaration `int x = 1 + 2;` adds exactly one
slot of type int to the global table and attaches to that slot (index 0) an
initial-value record of data type int holding the folded literal 3. -/
theorem claimC6 :
    jafStaticAnalyze ainEmpty [.declaration xDecl] =
      .ok ({ version := 4, structures := [], functions := [],
             globals := [{ name := ("x"), name2 := none,
                           type := { data := .int, struc := 0 } }],
             initvals := [{ globalIndex := 0, data := .int 3 }] },
           [.declaration (xDecl.withVarNo 0)]) := rfl

/-- Counterexample to C5 as stated: a declaration analyzed at global scope is
not required to carry an initializer — `analyze_global_declaration` accepts a
global declaration whose initializer is absent without any error, attaching
no initial-value record (the table is returned unchanged). -/
theorem claimC5_counterexample :
    analyzeGlobalDeclaration ainEmpty envGlobal
        (.mk (some ("z")) (.mk .int none none 0) none none none 0 (-1)) =
      .ok (ainEmpty, envGlobal) ∧ ainEmpty.initvals = [] := ⟨rfl, rfl⟩

/-- C5 (amended): for every declaration analyzed at global scope that has an
initializer, the initializer is folded, type-checked against the declared
type (a type-mismatch error on disagreement, and derivation errors
propagate), and converted to an initial-value record — which succeeds exactly
when the folded initializer is a literal int, float or string, any other
expression kind failing with the not-constant error — and on success the
record is attached under the global's slot index.  A declaration without an
initializer is skipped. -/
theorem claimC5_amended (ain : Ain) (env : JafEnv) (decl : JafDeclaration)
    (e : JafExpression) (h : decl.dinit = some e) :
    (∀ err, jafDeriveTypes env e = .error err →
        analyzeGlobalDeclaration ain env decl = .error err) ∧
    (∀ t exp, jafDeriveTypes env e = .ok t →
        jafToAinDataType decl.typeSpec.tag = .ok exp → t ≠ exp →
        analyzeGlobalDeclaration ain env decl = .error .typeMismatch) ∧
    (∀ t, jafDeriveTypes env e = .ok t →
        jafToAinDataType decl.typeSpec.tag = .ok t →
        (∀ dta, jafToInitval (jafSimplify e) = .ok dta →
            analyzeGlobalDeclaration ain env decl =
              .ok (ainAddInitval ain { globalIndex := decl.varNo, data := dta }, env)) ∧
        (jafToInitval (jafSimplify e) = .error .initvalNotConstant →
            analyzeGlobalDeclaration ain env decl = .error .initvalNotConstant)) := by
  refine ⟨?_, ?_, ?_⟩
  · intro err herr
    simp [analyzeGlobalDeclaration, h, analyzeExpressionCore, herr]
  · intro t exp hd hexp hne
    simp [analyzeGlobalDeclaration, h, analyzeExpressionCore, hd, jafCheckType,
          jafDeriveTypes_simplify, hexp, hne]
  · intro t hd hexp
    constructor
    · intro dta hiv
      simp [analyzeGlobalDeclaration, h, analyzeExpressionCore, hd, jafCheckType,
            jafDeriveTypes_simplify, hexp, hiv]
    · intro hiv
      simp [analyzeGlobalDeclaration, h, analyzeExpressionCore, hd, jafCheckType,
            jafDeriveTypes_simplify, hexp, hiv]

/-- Witness for C5 (amended): the constant initializer `1 + 2` of a global
int is folded and attached as the literal-3 record under slot 0, and a global
int initialized with a string literal fails with a type mismatch. -/
theorem claimC5_witness :
    analyzeGlobalDeclaration ainEmpty envGlobal (xDecl.withVarNo 0) =
      .ok (ainAddInitval ainEmpty { globalIndex := 0, data := .int 3 }, envGlobal) ∧
    analyzeGlobalDeclaration ainEmpty envGlobal
        (.mk (some ("w")) (.mk .int none none 0) none none
             (some (.strLit ("oops"))) 0 (-1)) =
      .error .typeMismatch := by
  constructor
  · exact ((claimC5_amended ainEmpty envGlobal (xDecl.withVarNo 0)
        (.binary .add (.intLit 1) (.intLit 2)) rfl).2.2 .int rfl rfl).1 (.int 3) rfl
  · exact (claimC5_amended ainEmpty envGlobal
        (.mk (some ("w")) (.mk .int none none 0) none none
             (some (.strLit ("oops"))) 0 (-1))
        (.strLit ("oops")) rfl).2.1 .string .int rfl rfl (by decide)

/-- C7: for a return statement carrying an expression, the analyzer first
analyzes the expression (derivation failures abort with that error), then
checks the folded result against the enclosing function's declared return
type: disagreement is a fatal type-mismatch error, agreement leaves the
tables and environment unchanged. -/
theorem claimC7 (ain : Ain) (env : JafEnv) (e : JafExpression)
    (fd : JafDeclaration) (h : env.fundecl = some fd) :
    (∀ err, jafDeriveTypes env e = .error err →
        analyzeStatement ain env (.returnStmt (some e)) = .error err) ∧
    (∀ t exp, jafDeriveTypes env e = .ok t →
        jafToAinDataType fd.typeSpec.tag = .ok exp →
        (t ≠ exp →
          analyzeStatement ain env (.returnStmt (some e)) = .error .typeMismatch) ∧
        (t = exp →
          analyzeStatement ain env (.returnStmt (some e)) = .ok (ain, env))) := by
  constructor
  · intro err herr
    simp [analyzeStatement, analyzeExpression, analyzeExpressionCore, herr]
  · intro t exp hd hexp
    constructor
    · intro hne
      simp [analyzeStatement, analyzeExpression, analyzeExpressionCore, hd, h,
            jafCheckType, jafDeriveTypes_simplify, hexp, hne]
    · intro heq
      subst heq
      simp [analyzeStatement, analyzeExpression, analyzeExpressionCore, hd, h,
            jafCheckType, jafDeriveTypes_simplify, hexp]

/-- Witness for C7: in the body of `string f(int n)`, the statement
`return n;` (whose expression derives to int) fails with a type mismatch. -/
theorem claimC7_witness :
    analyzeStatement ainEmpty
        (.mk (some envGlobal) 0 (some fDeclString)
             [{ name := ("n"), name2 := none, type := { data := .int, struc := 0 } }])
        (.returnStmt (some (.ident ("n")))) = .error .typeMismatch := by
  exact ((claimC7 ainEmpty
      (.mk (some envGlobal) 0 (some fDeclString)
           [{ name := ("n"), name2 := none, type := { data := .int, struc := 0 } }])
      (.ident ("n")) fDeclString rfl).2 .int .string rfl rfl).1 (by decide)

theorem structIdx_none_iff (l : List AinStruct) (n : String) :
    structIdx l n = none ↔ ∀ s ∈ l, s.name ≠ n := by
  induction l with
  | nil => simp [structIdx]
  | cons s rest ih =>
      by_cases hs : s.name = n <;> simp [structIdx, hs, ih]

theorem dsStructuresExtend :
    (∀ ain ts, ∀ ain' ts', jafDefineStruct ain ts = .ok (ain', ts') →
        ∃ ext, ain'.structures = ain.structures ++ ext) ∧
    (∀ ain items, ∀ ain' items', defineTypesList ain items = .ok (ain', items') →
        ∃ ext, ain'.structures = ain.structures ++ ext) ∧
    (∀ ain item, ∀ ain' item', defineTypes ain item = .ok (ain', item') →
        ∃ ext, ain'.structures = ain.structures ++ ext) := by
  refine jafDefineStruct.mutual_induct
    (fun ain ts => ∀ ain' ts', jafDefineStruct ain ts = .ok (ain', ts') →
        ∃ ext, ain'.structures = ain.structures ++ ext)
    (fun ain items => ∀ ain' items', defineTypesList ain items = .ok (ain', items') →
        ∃ ext, ain'.structures = ain.structures ++ ext)
    (fun ain item => ∀ ain' item', defineTypes ain item = .ok (ain', item') →
        ∃ ext, ain'.structures = ain.structures ++ ext)
    ?_ ?_ ?_ ?_ ?_ ?_ ?_ ?_ ?_ ?_ ?_
  · intro ain a a1 a2 ain' ts' hok
    simp [jafDefineStruct] at hok
  · intro ain a a1 a2 n hdup ain' ts' hok
    rw [jafDefineStruct, if_pos hdup] at hok
    exact Except.noConfusion hok
  · intro ain a a1 n hdup ain1 sno hadd ain' ts' hok
    rw [jafDefineStruct] at hok
    simp only [hdup, Bool.false_eq_true, if_false, hadd] at hok
    exact Except.noConfusion hok
  · intro ain a a1 n hdup ain1 sno hadd items ih ain' ts' hok
    rw [jafDefineStruct] at hok
    simp only [hdup, Bool.false_eq_true, if_false, hadd] at hok
    cases hdl : defineTypesList ain1 items with
    | error er => rw [hdl] at hok; simp at hok
    | ok p =>
        obtain ⟨ain2, items'⟩ := p
        rw [hdl] at hok
        simp at hok
        obtain ⟨ha, _⟩ := hok
        obtain ⟨ext, hext⟩ := ih ain2 items' hdl
        have h1 : ain1.structures =
            ain.structures ++ [{ name := encodeTextToInputFormat n, members := [] }] := by
          have := congrArg Prod.fst hadd
          simp [ainAddStruct] at this
          rw [← this]
        refine ⟨[{ name := encodeTextToInputFormat n, members := [] }] ++ ext, ?_⟩
        rw [← ha, hext, h1, List.append_assoc]
  · intro ain dn dts dps db di dv df htag ih ain' item' hok
    rw [defineTypes] at hok
    simp only [htag, if_true] at hok
    cases hds : jafDefineStruct ain dts with
    | error er => rw [hds] at hok; simp at hok
    | ok p =>
        obtain ⟨a, ts'⟩ := p
        rw [hds] at hok
        simp at hok
        obtain ⟨ha, _⟩ := hok
        obtain ⟨ext, hext⟩ := ih a ts' hds
        exact ⟨ext, by rw [← ha, hext]⟩
  · intro ain dn dts dps db di dv df htag ain' item' hok
    rw [defineTypes] at hok
    simp only [htag, if_false] at hok
    simp at hok
    exact ⟨[], by rw [← hok.1]; simp⟩
  · intro ain dn dts dps db di dv df htag ih ain' item' hok
    rw [defineTypes] at hok
    simp only [htag, if_true] at hok
    cases hds : jafDefineStruct ain dts with
    | error er => rw [hds] at hok; simp at hok
    | ok p =>
        obtain ⟨a, ts'⟩ := p
        rw [hds] at hok
        simp at hok
        obtain ⟨ha, _⟩ := hok
        obtain ⟨ext, hext⟩ := ih a ts' hds
        exact ⟨ext, by rw [← ha, hext]⟩
  · intro ain dn dts dps db di dv df htag ain' item' hok
    rw [defineTypes] at hok
    simp only [htag, if_false] at hok
    simp at hok
    exact ⟨[], by rw [← hok.1]; simp⟩
  · intro t ain hnd hnf ain' item' hok
    cases t with
    | declaration d => cases d with | mk dn dts dps db di dv df => exact absurd rfl (hnd dn dts dps db di dv df)
    | fundecl d => cases d with | mk dn dts dps db di dv df => exact absurd rfl (hnf dn dts dps db di dv df)
    | labeled s => simp [defineTypes] at hok
    | compound items => simp [defineTypes] at hok
    | exprStmt e => simp [defineTypes] at hok
    | ifStmt a b c => simp [defineTypes] at hok
    | switchStmt a b => simp [defineTypes] at hok
    | whileStmt a b => simp [defineTypes] at hok
    | doWhileStmt a b => simp [defineTypes] at hok
    | forStmt a b c d => simp [defineTypes] at hok
    | returnStmt e => simp [defineTypes] at hok
    | caseStmt a b => simp [defineTypes] at hok
    | defaultStmt a => simp [defineTypes] at hok
    | gotoStmt => simp [defineTypes] at hok
    | continueStmt => simp [defineTypes] at hok
    | breakStmt => simp [defineTypes] at hok
  · intro ain ain' items' hok
    simp [defineTypesList] at hok
    exact ⟨[], by rw [← hok.1]; simp⟩
  · intro ain item rest ih1 ih2 ain' items' hok
    rw [defineTypesList] at hok
    cases hdt : defineTypes ain item with
    | error er => rw [hdt] at hok; simp at hok
    | ok p =>
        obtain ⟨a1, item'⟩ := p
        rw [hdt] at hok
        simp only [exceptBind_ok] at hok
        cases hdl : defineTypesList a1 rest with
        | error er => rw [hdl] at hok; simp at hok
        | ok q =>
            obtain ⟨a2, rest'⟩ := q
            rw [hdl] at hok
            simp at hok
            obtain ⟨ha, _⟩ := hok
            obtain ⟨e1, he1⟩ := ih1 a1 item' hdt
            obtain ⟨e2, he2⟩ := ih2 a1 a2 rest' hdl
            exact ⟨e1 ++ e2, by rw [← ha, he2, he1, List.append_assoc]⟩

theorem getStructNo_none_not_mem (ain : Ain) (u : String)
    (h : ¬(ainGetStructNo ain u).isSome = true) : u ∉ structNames ain := by
  intro hmem
  cases hg : ainGetStructNo ain u with
  | some k => rw [hg] at h; simp at h
  | none =>
      have hall := (structIdx_none_iff ain.structures u).mp hg
      obtain ⟨s, hs, hname⟩ := List.mem_map.mp hmem
      exact hall s hs hname

theorem jafDefineStruct_ok_shape (ain : Ain) (ts : JafTypeSpec) (ain' : Ain)
    (ts' : JafTypeSpec) (hok : jafDefineStruct ain ts = .ok (ain', ts')) :
    ∃ n items items' ext,
      ts.name = some n ∧ ts.sdef = some items ∧
      ts' = .mk ts.tag (some n) (some items') (Int.ofNat ain.structures.length) ∧
      defineTypesList
        { ain with structures := ain.structures ++
            [{ name := encodeTextToInputFormat n, members := [] }] } items =
        .ok (ain', items') ∧
      ain'.structures = ain.structures ++
        { name := encodeTextToInputFormat n, members := [] } :: ext := by
  cases ts with
  | mk tag name sdef sno0 =>
    cases name with
    | none => rw [jafDefineStruct] at hok; exact Except.noConfusion hok
    | some n =>
        cases sdef with
        | none =>
            rw [jafDefineStruct] at hok
            by_cases hdup : (ainGetStructNo ain (encodeTextToInputFormat n)).isSome = true
            · rw [if_pos hdup] at hok; exact Except.noConfusion hok
            · simp only [hdup, Bool.false_eq_true, if_false, ainAddStruct] at hok
              exact Except.noConfusion hok
        | some items =>
            rw [jafDefineStruct] at hok
            by_cases hdup : (ainGetStructNo ain (encodeTextToInputFormat n)).isSome = true
            · rw [if_pos hdup] at hok; exact Except.noConfusion hok
            · simp only [hdup, Bool.false_eq_true, if_false, ainAddStruct] at hok
              cases hdl : defineTypesList
                  { ain with structures := ain.structures ++
                      [{ name := encodeTextToInputFormat n, members := [] }] } items with
              | error er => rw [hdl] at hok; exact Except.noConfusion hok
              | ok p =>
                  obtain ⟨ain2, items'⟩ := p
                  rw [hdl] at hok
                  simp only [exceptBind_ok] at hok
                  cases hok
                  obtain ⟨ext0, hext⟩ := dsStructuresExtend.2.1 _ _ _ _ hdl
                  refine ⟨n, items, items', ext0, rfl, rfl, rfl, hdl, ?_⟩
                  simpa [List.append_assoc] using hext

theorem defineTypesList_registers :
    ∀ (items : List JafBlockItem) (ain ain' : Ain) (items' : List JafBlockItem),
      defineTypesList ain items = .ok (ain', items') →
      ∀ d, JafBlockItem.declaration d ∈ items →
        d.typeSpec.tag = .struct → ∀ m, d.typeSpec.name = some m →
        encodeTextToInputFormat m ∈ structNames ain' := by
  intro items
  induction items with
  | nil => intro ain ain' items' hok d hd; simp at hd
  | cons item rest ih =>
      intro ain ain' items' hok d hd htag m hm
      rw [defineTypesList] at hok
      cases hdt : defineTypes ain item with
      | error er => rw [hdt] at hok; exact Except.noConfusion hok
      | ok p =>
          obtain ⟨a1, item1⟩ := p
          rw [hdt] at hok
          simp only [exceptBind_ok] at hok
          cases hdl : defineTypesList a1 rest with
          | error er => rw [hdl] at hok; exact Except.noConfusion hok
          | ok q =>
              obtain ⟨a2, rest1⟩ := q
              rw [hdl] at hok
              simp only [exceptBind_ok] at hok
              cases hok
              rcases List.mem_cons.mp hd with hh | ht
              · subst hh
                cases d with
                | mk dn dts dps db di dv df =>
                    simp only [JafDeclaration.typeSpec] at htag hm
                    rw [defineTypes] at hdt
                    rw [if_pos htag] at hdt
                    cases hds : jafDefineStruct ain dts with
                    | error er => rw [hds] at hdt; exact Except.noConfusion hdt
                    | ok pq =>
                        obtain ⟨aS, tsS⟩ := pq
                        rw [hds] at hdt
                        simp only [exceptBind_ok] at hdt
                        have ha1 : aS = a1 := by cases hdt; rfl
                        subst ha1
                        obtain ⟨n0, its, its', ext, hn0, _, _, _, hstr⟩ :=
                          jafDefineStruct_ok_shape ain dts aS tsS hds
                        rw [hm] at hn0
                        cases hn0
                        have hmemS : encodeTextToInputFormat m ∈ structNames aS := by
                          rw [structNames, hstr]
                          simp
                        obtain ⟨ext2, hext2⟩ := dsStructuresExtend.2.1 _ _ _ _ hdl
                        rw [structNames, hext2]
                        rw [structNames] at hmemS
                        simp only [List.map_append, List.mem_append]
                        exact Or.inl hmemS
              · exact ih a1 _ _ hdl d ht htag m hm

theorem dsNodupPreserved :
    (∀ ain ts, ∀ ain' ts', jafDefineStruct ain ts = .ok (ain', ts') →
        (structNames ain).Nodup → (structNames ain').Nodup) ∧
    (∀ ain items, ∀ ain' items', defineTypesList ain items = .ok (ain', items') →
        (structNames ain).Nodup → (structNames ain').Nodup) ∧
    (∀ ain item, ∀ ain' item', defineTypes ain item = .ok (ain', item') →
        (structNames ain).Nodup → (structNames ain').Nodup) := by
  refine jafDefineStruct.mutual_induct
    (fun ain ts => ∀ ain' ts', jafDefineStruct ain ts = .ok (ain', ts') →
        (structNames ain).Nodup → (structNames ain').Nodup)
    (fun ain items => ∀ ain' items', defineTypesList ain items = .ok (ain', items') →
        (structNames ain).Nodup → (structNames ain').Nodup)
    (fun ain item => ∀ ain' item', defineTypes ain item = .ok (ain', item') →
        (structNames ain).Nodup → (structNames ain').Nodup)
    ?_ ?_ ?_ ?_ ?_ ?_ ?_ ?_ ?_ ?_ ?_
  · intro ain a a1 a2 ain' ts' hok
    rw [jafDefineStruct] at hok
    exact Except.noConfusion hok
  · intro ain a a1 a2 n hdup ain' ts' hok
    rw [jafDefineStruct, if_pos hdup] at hok
    exact Except.noConfusion hok
  · intro ain a a1 n hdup ain1 sno hadd ain' ts' hok
    rw [jafDefineStruct] at hok
    simp only [hdup, Bool.false_eq_true, if_false, hadd] at hok
    exact Except.noConfusion hok
  · intro ain a a1 n hdup ain1 sno hadd items ih ain' ts' hok hnd
    rw [jafDefineStruct] at hok
    simp only [hdup, Bool.false_eq_true, if_false, hadd] at hok
    cases hdl : defineTypesList ain1 items with
    | error er => rw [hdl] at hok; simp at hok
    | ok p =>
        obtain ⟨ain2, items'⟩ := p
        rw [hdl] at hok
        simp at hok
        obtain ⟨ha, _⟩ := hok
        have h1 : ain1.structures =
            ain.structures ++ [{ name := encodeTextToInputFormat n, members := [] }] := by
          have hc := congrArg Prod.fst hadd
          simp [ainAddStruct] at hc
          rw [← hc]
        have hnotmem : encodeTextToInputFormat n ∉ structNames ain :=
          getStructNo_none_not_mem ain _ hdup
        have hnd1 : (structNames ain1).Nodup := by
          have h2 : structNames ain1 =
              structNames ain ++ [encodeTextToInputFormat n] := by
            rw [structNames, structNames, h1, List.map_append]
            rfl
          rw [h2, List.nodup_append_comm, List.singleton_append]
          exact List.nodup_cons.mpr ⟨hnotmem, hnd⟩
        have hres := ih ain2 items' hdl hnd1
        rw [← ha]
        exact hres
  · intro ain dn dts dps db di dv df htag ih ain' item' hok hnd
    rw [defineTypes] at hok
    rw [if_pos htag] at hok
    cases hds : jafDefineStruct ain dts with
    | error er => rw [hds] at hok; exact Except.noConfusion hok
    | ok p =>
        obtain ⟨a, tsS⟩ := p
        rw [hds] at hok
        simp only [exceptBind_ok] at hok
        cases hok
        exact ih _ _ hds hnd
  · intro ain dn dts dps db di dv df htag ain' item' hok hnd
    rw [defineTypes] at hok
    rw [if_neg htag] at hok
    cases hok
    exact hnd
  · intro ain dn dts dps db di dv df htag ih ain' item' hok hnd
    rw [defineTypes] at hok
    rw [if_pos htag] at hok
    cases hds : jafDefineStruct ain dts with
    | error er => rw [hds] at hok; exact Except.noConfusion hok
    | ok p =>
        obtain ⟨a, tsS⟩ := p
        rw [hds] at hok
        simp only [exceptBind_ok] at hok
        cases hok
        exact ih _ _ hds hnd
  · intro ain dn dts dps db di dv df htag ain' item' hok hnd
    rw [defineTypes] at hok
    rw [if_neg htag] at hok
    cases hok
    exact hnd
  · intro t ain hnd1 hnf ain' item' hok
    cases t with
    | declaration d =>
        cases d with
        | mk dn dts dps db di dv df => exact absurd rfl (hnd1 dn dts dps db di dv df)
    | fundecl d =>
        cases d with
        | mk dn dts dps db di dv df => exact absurd rfl (hnf dn dts dps db di dv df)
    | labeled s => simp [defineTypes] at hok
    | compound items => simp [defineTypes] at hok
    | exprStmt e => simp [defineTypes] at hok
    | ifStmt a b c => simp [defineTypes] at hok
    | switchStmt a b => simp [defineTypes] at hok
    | whileStmt a b => simp [defineTypes] at hok
    | doWhileStmt a b => simp [defineTypes] at hok
    | forStmt a b c d => simp [defineTypes] at hok
    | returnStmt e => simp [defineTypes] at hok
    | caseStmt a b => simp [defineTypes] at hok
    | defaultStmt a => simp [defineTypes] at hok
    | gotoStmt => simp [defineTypes] at hok
    | continueStmt => simp [defineTypes] at hok
    | breakStmt => simp [defineTypes] at hok
  · intro ain ain' items' hok hnd
    rw [defineTypesList] at hok
    cases hok
    exact hnd
  · intro ain item rest ih1 ih2 ain' items' hok hnd
    rw [defineTypesList] at hok
    cases hdt : defineTypes ain item with
    | error er => rw [hdt] at hok; exact Except.noConfusion hok
    | ok p =>
        obtain ⟨a1, item1⟩ := p
        rw [hdt] at hok
        simp only [exceptBind_ok] at hok
        cases hdl : defineTypesList a1 rest with
        | error er => rw [hdl] at hok; exact Except.noConfusion hok
        | ok q =>
            obtain ⟨a2, rest1⟩ := q
            rw [hdl] at hok
            simp only [exceptBind_ok] at hok
            cases hok
            exact ih2 _ _ _ hdl (ih1 _ _ hdt hnd)

/-- C2: `jaf_define_struct` fails with the duplicate-definition error whenever
the struct's name is already registered in the type table (so no second entry
is added), and a successful definition starting from a table with pairwise
distinct struct names leaves the names pairwise distinct — for every struct
name at most one definition exists in the table after the pass. -/
theorem claimC2 (ain : Ain) (ts : JafTypeSpec) :
    (∀ n, ts.name = some n → (ainGetStructNo ain (encodeTextToInputFormat n)).isSome →
        jafDefineStruct ain ts = .error .duplicateDefinition) ∧
    (∀ ain' ts', jafDefineStruct ain ts = .ok (ain', ts') →
        (structNames ain).Nodup → (structNames ain').Nodup) := by
  constructor
  · intro n hn hdup
    cases ts with
    | mk tag name sdef sno0 =>
        simp only [JafTypeSpec.name] at hn
        subst hn
        rw [jafDefineStruct, if_pos hdup]
  · intro ain' ts' hok hnd
    exact dsNodupPreserved.1 ain ts ain' ts' hok hnd

/-- Witness for C2: defining `S` against a table already holding `S` fails
with the duplicate-definition error, and after defining `T` in the empty
table the struct names are pairwise distinct. -/
theorem claimC2_witness :
    jafDefineStruct { version := 4, structures := [{ name := ("S"), members := [] }],
                      functions := [], globals := [], initvals := [] }
        (.mk .struct (some ("S")) (some []) (-1)) = .error .duplicateDefinition ∧
    (structNames { version := 4, structures := [{ name := ("T"), members := [] }],
                   functions := [], globals := [], initvals := [] }).Nodup := by
  constructor
  · exact (claimC2 { version := 4, structures := [{ name := ("S"), members := [] }],
                     functions := [], globals := [], initvals := [] }
        (.mk .struct (some ("S")) (some []) (-1))).1 ("S") rfl (by decide)
  · exact (claimC2 ainEmpty (.mk .struct (some ("T")) (some []) (-1))).2
      { version := 4, structures := [{ name := ("T"), members := [] }],
        functions := [], globals := [], initvals := [] }
      (.mk .struct (some ("T")) (some []) 0) rfl (by decide)

/-- Counterexample to C3 as stated: in `struct S { int a; S next; }` the
member `next`, whose type names the struct being defined, does not resolve to
the struct's own id — after `jaf_define_struct` reserves `S`, the
struct-body-resolution step of `resolve_decl_types` converts member types
with `jaf_to_ain_type` without consulting the type table, so the
typedef-tagged member is a fatal unknown-type error and no member list is
produced. -/
theorem claimC3_counterexample :
    ((do
      let (a1, ts1) ← jafDefineStruct ainEmpty sSpec
      resolveDeclTypes a1 (JafDeclaration.mk none ts1 none none none (-1) (-1))) :
        Except JafError (Ain × JafDeclaration)) =
      .error (.unknownType .typedef) := rfl

/-- C3 (amended): `jaf_define_struct` allocates the fresh struct id (the next
table index, recorded in the specifier) and registers the struct's name in
the type table before recursing into its member declaration list, so a
struct type declared inside the member list is registered in the same pass;
however, a member whose type names the enclosing struct is left as an
unresolved typedef — struct-body resolution fails on it with an unknown-type
error instead of resolving it to the struct's own id. -/
theorem claimC3_amended (ain ain' : Ain) (ts ts' : JafTypeSpec) (n : String)
    (hn : ts.name = some n) (hok : jafDefineStruct ain ts = .ok (ain', ts')) :
    ts'.structNo = Int.ofNat ain.structures.length ∧
    (∃ ext, ain'.structures =
        ain.structures ++ { name := encodeTextToInputFormat n, members := [] } :: ext) ∧
    (∀ items, ts.sdef = some items →
        ∀ d, JafBlockItem.declaration d ∈ items →
          d.typeSpec.tag = .struct → ∀ m, d.typeSpec.name = some m →
          encodeTextToInputFormat m ∈ structNames ain') ∧
    ((do
        let (a1, ts1) ← jafDefineStruct ainEmpty sSpec
        resolveDeclTypes a1 (JafDeclaration.mk none ts1 none none none (-1) (-1))) :
          Except JafError (Ain × JafDeclaration)) =
      .error (.unknownType .typedef) := by
  obtain ⟨n0, items0, items', ext, hn0, hsd, hts', hdl, hstr⟩ :=
    jafDefineStruct_ok_shape ain ts ain' ts' hok
  rw [hn] at hn0
  cases hn0
  refine ⟨?_, ⟨ext, hstr⟩, ?_, rfl⟩
  · rw [hts']
    rfl
  · intro items hitems d hd htag m hm
    rw [hsd] at hitems
    cases hitems
    exact defineTypesList_registers items0 _ _ _ hdl d hd htag m hm

/-- Witness for C3 (amended), at `struct T { struct U { } u; }`: the fresh id
0 is recorded, `T` heads the extension of the table, and the nested struct
`U` declared in the member list is registered in the same pass. -/
theorem claimC3_witness :
    (JafTypeSpec.mk .struct (some ("T"))
      (some [JafBlockItem.declaration
        (JafDeclaration.mk (some ("u")) (JafTypeSpec.mk .struct (some ("U")) (some []) 1)
          none none none (-1) (-1))]) 0).structNo = Int.ofNat 0 ∧
    (∃ ext,
      ({ version := 4,
         structures := [{ name := ("T"), members := [] }, { name := ("U"), members := [] }],
         functions := [], globals := [], initvals := [] } : Ain).structures =
        ainEmpty.structures ++ { name := encodeTextToInputFormat ("T"), members := [] } :: ext) ∧
    encodeTextToInputFormat ("U") ∈ structNames
      { version := 4,
        structures := [{ name := ("T"), members := [] }, { name := ("U"), members := [] }],
        functions := [], globals := [], initvals := [] } := by
  have h := claimC3_amended ainEmpty
      { version := 4,
        structures := [{ name := ("T"), members := [] }, { name := ("U"), members := [] }],
        functions := [], globals := [], initvals := [] }
      tSpec
      (JafTypeSpec.mk .struct (some ("T"))
        (some [JafBlockItem.declaration
          (JafDeclaration.mk (some ("u")) (JafTypeSpec.mk .struct (some ("U")) (some []) 1)
            none none none (-1) (-1))]) 0)
      ("T") rfl rfl
  exact ⟨h.1, h.2.1, h.2.2.1
    [JafBlockItem.declaration
      (JafDeclaration.mk (some ("u")) (JafTypeSpec.mk .struct (some ("U")) (some []) (-1))
        none none none (-1) (-1))] rfl
    (JafDeclaration.mk (some ("u")) (JafTypeSpec.mk .struct (some ("U")) (some []) (-1))
      none none none (-1) (-1)) (by simp) rfl ("U") rfl⟩

theorem natRangeI_append : ∀ (k1 s k2 : Nat),
    natRangeI s (k1 + k2) = natRangeI s k1 ++ natRangeI (s + k1) k2 := by
  intro k1
  induction k1 with
  | zero => intro s k2; simp [natRangeI]
  | succ k ih =>
      intro s k2
      have h1 : k + 1 + k2 = (k + k2) + 1 := by omega
      rw [h1, natRangeI, natRangeI, ih (s + 1) k2]
      have h2 : s + 1 + k = s + (k + 1) := by omega
      rw [h2, List.cons_append]

theorem initVariable_ok (ain : Ain) (d : JafDeclaration) (k : Int) (v : AinVariable)
    (d' : JafDeclaration) (h : initVariable ain d k = .ok (v, d')) :
    d' = d.withVarNo k := by
  cases hn : d.name with
  | none =>
      simp only [initVariable, hn] at h
      exact Except.noConfusion h
  | some n =>
      simp only [initVariable, hn] at h
      cases ht : jafToAinType d.typeSpec with
      | error er => rw [ht] at h; simp at h
      | ok ty =>
          rw [ht] at h
          simp only [exceptBind_ok] at h
          cases h
          rfl

theorem getVarsShape (ain : Ain) :
    (∀ vars item, ∀ vars' item', blockItemGetVars ain vars item = .ok (vars', item') →
        ∃ new, vars' = vars ++ new ∧
          declVarNosItem item' = natRangeI vars.length new.length) ∧
    (∀ vars items, ∀ vars' items', blockGetVars ain vars items = .ok (vars', items') →
        ∃ new, vars' = vars ++ new ∧
          declVarNosList items' = natRangeI vars.length new.length) := by
  refine blockItemGetVars.mutual_induct ain
    (fun vars item => ∀ vars' item', blockItemGetVars ain vars item = .ok (vars', item') →
        ∃ new, vars' = vars ++ new ∧
          declVarNosItem item' = natRangeI vars.length new.length)
    (fun vars items => ∀ vars' items', blockGetVars ain vars items = .ok (vars', items') →
        ∃ new, vars' = vars ++ new ∧
          declVarNosList items' = natRangeI vars.length new.length)
    ?_ ?_ ?_ ?_ ?_ ?_ ?_ ?_ ?_ ?_ ?_ ?_ ?_ ?_ ?_ ?_ ?_ ?_ ?_
  · intro vars d hname vars' item' h
    simp only [blockItemGetVars, hname] at h
    cases h
    exact ⟨[], by simp, by simp [declVarNosItem, hname, natRangeI]⟩
  · intro vars d n hname vars' item' h
    simp only [blockItemGetVars, hname] at h
    cases hiv : initVariable ain d (Int.ofNat vars.length) with
    | error er => rw [hiv] at h; exact Except.noConfusion h
    | ok p =>
        obtain ⟨v, d'⟩ := p
        rw [hiv] at h
        simp only [exceptBind_ok] at h
        cases h
        have hd' := initVariable_ok ain d _ v d' hiv
        subst hd'
        refine ⟨[v], rfl, ?_⟩
        simp [declVarNosItem, hname, natRangeI]
  · intro vars s ih vars' item' h
    simp only [blockItemGetVars] at h
    cases hrec : blockItemGetVars ain vars s with
    | error er => rw [hrec] at h; exact Except.noConfusion h
    | ok p =>
        obtain ⟨v, s'⟩ := p
        rw [hrec] at h
        simp only [exceptBind_ok] at h
        cases h
        obtain ⟨new, hnew, hnos⟩ := ih _ _ hrec
        exact ⟨new, hnew, by simpa [declVarNosItem] using hnos⟩
  · intro vars items ih vars' item' h
    simp only [blockItemGetVars] at h
    cases hrec : blockGetVars ain vars items with
    | error er => rw [hrec] at h; exact Except.noConfusion h
    | ok p =>
        obtain ⟨v, items2⟩ := p
        rw [hrec] at h
        simp only [exceptBind_ok] at h
        cases h
        obtain ⟨new, hnew, hnos⟩ := ih _ _ hrec
        exact ⟨new, hnew, by simpa [declVarNosItem] using hnos⟩
  · intro vars t c alt ih1 ih2 vars' item' h
    simp only [blockItemGetVars] at h
    cases hr1 : blockItemGetVars ain vars c with
    | error er => rw [hr1] at h; exact Except.noConfusion h
    | ok p =>
        obtain ⟨v1, c'⟩ := p
        rw [hr1] at h
        simp only [exceptBind_ok] at h
        cases hr2 : blockItemGetVars ain v1 alt with
        | error er => rw [hr2] at h; exact Except.noConfusion h
        | ok q =>
            obtain ⟨v2, alt'⟩ := q
            rw [hr2] at h
            simp only [exceptBind_ok] at h
            cases h
            obtain ⟨new1, hnew1, hnos1⟩ := ih1 _ _ hr1
            subst hnew1
            obtain ⟨new2, hnew2, hnos2⟩ := ih2 _ _ _ hr2
            subst hnew2
            refine ⟨new1 ++ new2, by rw [List.append_assoc], ?_⟩
            simp only [declVarNosItem, hnos1, hnos2, List.length_append,
              natRangeI_append]
  · intro vars e items ih vars' item' h
    simp only [blockItemGetVars] at h
    cases hrec : blockGetVars ain vars items with
    | error er => rw [hrec] at h; exact Except.noConfusion h
    | ok p =>
        obtain ⟨v, items2⟩ := p
        rw [hrec] at h
        simp only [exceptBind_ok] at h
        cases h
        obtain ⟨new, hnew, hnos⟩ := ih _ _ hrec
        exact ⟨new, hnew, by simpa [declVarNosItem] using hnos⟩
  · intro vars t body ih vars' item' h
    simp only [blockItemGetVars] at h
    cases hrec : blockItemGetVars ain vars body with
    | error er => rw [hrec] at h; exact Except.noConfusion h
    | ok p =>
        obtain ⟨v, b'⟩ := p
        rw [hrec] at h
        simp only [exceptBind_ok] at h
        cases h
        obtain ⟨new, hnew, hnos⟩ := ih _ _ hrec
        exact ⟨new, hnew, by simpa [declVarNosItem] using hnos⟩
  · intro vars t body ih vars' item' h
    simp only [blockItemGetVars] at h
    cases hrec : blockItemGetVars ain vars body with
    | error er => rw [hrec] at h; exact Except.noConfusion h
    | ok p =>
        obtain ⟨v, b'⟩ := p
        rw [hrec] at h
        simp only [exceptBind_ok] at h
        cases h
        obtain ⟨new, hnew, hnos⟩ := ih _ _ hrec
        exact ⟨new, hnew, by simpa [declVarNosItem] using hnos⟩
  · intro vars finit t aft body ih1 ih2 vars' item' h
    simp only [blockItemGetVars] at h
    cases hr1 : blockGetVars ain vars finit with
    | error er => rw [hr1] at h; exact Except.noConfusion h
    | ok p =>
        obtain ⟨v1, finit'⟩ := p
        rw [hr1] at h
        simp only [exceptBind_ok] at h
        cases hr2 : blockItemGetVars ain v1 body with
        | error er => rw [hr2] at h; exact Except.noConfusion h
        | ok q =>
            obtain ⟨v2, b'⟩ := q
            rw [hr2] at h
            simp only [exceptBind_ok] at h
            cases h
            obtain ⟨new1, hnew1, hnos1⟩ := ih1 _ _ hr1
            subst hnew1
            obtain ⟨new2, hnew2, hnos2⟩ := ih2 _ _ _ hr2
            subst hnew2
            refine ⟨new1 ++ new2, by rw [List.append_assoc], ?_⟩
            simp only [declVarNosItem, hnos1, hnos2, List.length_append,
              natRangeI_append]
  · intro vars e s ih vars' item' h
    simp only [blockItemGetVars] at h
    cases hrec : blockItemGetVars ain vars s with
    | error er => rw [hrec] at h; exact Except.noConfusion h
    | ok p =>
        obtain ⟨v, s'⟩ := p
        rw [hrec] at h
        simp only [exceptBind_ok] at h
        cases h
        obtain ⟨new, hnew, hnos⟩ := ih _ _ hrec
        exact ⟨new, hnew, by simpa [declVarNosItem] using hnos⟩
  · intro vars s ih vars' item' h
    simp only [blockItemGetVars] at h
    cases hrec : blockItemGetVars ain vars s with
    | error er => rw [hrec] at h; exact Except.noConfusion h
    | ok p =>
        obtain ⟨v, s'⟩ := p
        rw [hrec] at h
        simp only [exceptBind_ok] at h
        cases h
        obtain ⟨new, hnew, hnos⟩ := ih _ _ hrec
        exact ⟨new, hnew, by simpa [declVarNosItem] using hnos⟩
  · intro vars e vars' item' h
    simp only [blockItemGetVars] at h
    cases h
    exact ⟨[], by simp, by simp [declVarNosItem, natRangeI]⟩
  · intro vars vars' item' h
    simp only [blockItemGetVars] at h
    cases h
    exact ⟨[], by simp, by simp [declVarNosItem, natRangeI]⟩
  · intro vars vars' item' h
    simp only [blockItemGetVars] at h
    cases h
    exact ⟨[], by simp, by simp [declVarNosItem, natRangeI]⟩
  · intro vars vars' item' h
    simp only [blockItemGetVars] at h
    cases h
    exact ⟨[], by simp, by simp [declVarNosItem, natRangeI]⟩
  · intro vars e vars' item' h
    simp only [blockItemGetVars] at h
    cases h
    exact ⟨[], by simp, by simp [declVarNosItem, natRangeI]⟩
  · intro vars d vars' item' h
    simp only [blockItemGetVars] at h
    exact Except.noConfusion h
  · intro vars vars' items' h
    simp only [blockGetVars] at h
    cases h
    exact ⟨[], by simp, by simp [declVarNosList, natRangeI]⟩
  · intro vars item rest ih1 ih2 vars' items' h
    simp only [blockGetVars] at h
    cases hr1 : blockItemGetVars ain vars item with
    | error er => rw [hr1] at h; exact Except.noConfusion h
    | ok p =>
        obtain ⟨v1, item1⟩ := p
        rw [hr1] at h
        simp only [exceptBind_ok] at h
        cases hr2 : blockGetVars ain v1 rest with
        | error er => rw [hr2] at h; exact Except.noConfusion h
        | ok q =>
            obtain ⟨v2, rest1⟩ := q
            rw [hr2] at h
            simp only [exceptBind_ok] at h
            cases h
            obtain ⟨new1, hnew1, hnos1⟩ := ih1 _ _ hr1
            subst hnew1
            obtain ⟨new2, hnew2, hnos2⟩ := ih2 _ _ _ hr2
            subst hnew2
            refine ⟨new1 ++ new2, by rw [List.append_assoc], ?_⟩
            simp only [declVarNosList, hnos1, hnos2, List.length_append,
              natRangeI_append]

theorem paramInitVars_spec :
    ∀ (items : List JafBlockItem) (ain : Ain) (idx : Nat) (vs : List AinVariable)
      (items' : List JafBlockItem),
      paramInitVars ain idx items = .ok (vs, items') →
      vs.length = items.length ∧ declVarNosList items' = natRangeI idx items.length := by
  intro items
  induction items with
  | nil =>
      intro ain idx vs items' h
      rw [paramInitVars] at h
      cases h
      exact ⟨rfl, rfl⟩
  | cons item rest ih =>
      intro ain idx vs items' h
      cases item with
      | declaration d =>
          cases hn : d.name with
          | none =>
              simp only [paramInitVars, hn] at h
              exact Except.noConfusion h
          | some n =>
              simp only [paramInitVars, hn] at h
              cases hiv : initVariable ain d (Int.ofNat idx) with
              | error er => rw [hiv] at h; exact Except.noConfusion h
              | ok p =>
                  obtain ⟨v, d'⟩ := p
                  rw [hiv] at h
                  simp only [exceptBind_ok] at h
                  cases hr : paramInitVars ain (idx + 1) rest with
                  | error er => rw [hr] at h; exact Except.noConfusion h
                  | ok q =>
                      obtain ⟨vs0, rest'⟩ := q
                      rw [hr] at h
                      simp only [exceptBind_ok] at h
                      cases h
                      obtain ⟨hlen, hnos⟩ := ih ain (idx + 1) vs0 rest' hr
                      have hd' := initVariable_ok ain d _ v d' hiv
                      subst hd'
                      constructor
                      · simp [hlen]
                      · simp only [declVarNosList, declVarNosItem, withVarNo_name, hn,
                          withVarNo_varNo, hnos, List.length_cons, natRangeI]
                        rfl
      | fundecl d => simp [paramInitVars] at h
      | labeled s => simp [paramInitVars] at h
      | compound b => simp [paramInitVars] at h
      | exprStmt e => simp [paramInitVars] at h
      | ifStmt a b c => simp [paramInitVars] at h
      | switchStmt a b => simp [paramInitVars] at h
      | whileStmt a b => simp [paramInitVars] at h
      | doWhileStmt a b => simp [paramInitVars] at h
      | forStmt a b c d => simp [paramInitVars] at h
      | returnStmt e => simp [paramInitVars] at h
      | caseStmt a b => simp [paramInitVars] at h
      | defaultStmt a => simp [paramInitVars] at h
      | gotoStmt => simp [paramInitVars] at h
      | continueStmt => simp [paramInitVars] at h
      | breakStmt => simp [paramInitVars] at h

/-- C1: on success of `function_init_vars`, the function's argument count is
the parameter-list length, its variable list is the parameter variables
followed by the body's collected locals, and the slot indices written back
onto the declarations — parameters first, then the body's named declarations
in traversal order — are exactly `0, 1, ..., nr_vars-1`: assigned in strict
declaration order, none reused, with the parameters occupying the prefix
`0 .. nr_args-1`. -/
theorem claimC1 (ain : Ain) (f0 f : AinFunction) (decl decl' : JafDeclaration)
    (h : functionInitVars ain f0 decl = .ok (f, decl')) :
    f.nrArgs = (decl.params.getD []).length ∧
    ∃ paramVars bodyVars params2,
      f.vars = paramVars ++ bodyVars ∧
      paramVars.length = f.nrArgs ∧
      paramInitVars ain 0 (decl.params.getD []) = .ok (paramVars, params2) ∧
      declVarNosList params2 = natRangeI 0 f.nrArgs ∧
      declVarNosList (decl'.body.getD []) = natRangeI f.nrArgs bodyVars.length ∧
      declVarNosList params2 ++ declVarNosList (decl'.body.getD []) =
        natRangeI 0 f.vars.length := by
  cases decl with
  | mk dn dts dps db di dv df =>
      cases db with
      | none =>
          simp only [functionInitVars] at h
          cases hp : paramInitVars ain 0 (dps.getD []) with
          | error er => rw [hp] at h; exact Except.noConfusion h
          | ok p =>
              obtain ⟨argVars, params'⟩ := p
              rw [hp] at h
              simp only [exceptBind_ok] at h
              exact Except.noConfusion h
      | some bodyItems =>
          simp only [functionInitVars] at h
          cases hp : paramInitVars ain 0 (dps.getD []) with
          | error er => rw [hp] at h; exact Except.noConfusion h
          | ok p =>
              obtain ⟨argVars, params'⟩ := p
              rw [hp] at h
              simp only [exceptBind_ok] at h
              cases hb : blockGetVars ain argVars bodyItems with
              | error er => rw [hb] at h; exact Except.noConfusion h
              | ok q =>
                  obtain ⟨vars, body'⟩ := q
                  rw [hb] at h
                  simp only [exceptBind_ok] at h
                  cases h
                  obtain ⟨hlen, hnosP⟩ := paramInitVars_spec _ ain 0 argVars params' hp
                  obtain ⟨new, hnew, hnosB⟩ := (getVarsShape ain).2 argVars bodyItems
                    vars body' hb
                  subst hnew
                  simp only [JafDeclaration.params, JafDeclaration.body, Option.getD_some]
                  refine ⟨trivial, argVars, new, params', rfl, hlen, hp, ?_, ?_, ?_⟩
                  · rw [hnosP]
                  · rw [hnosB, hlen]
                  · rw [hnosP, hnosB, hlen, List.length_append, natRangeI_append,
                      Nat.zero_add, hlen]

theorem getVarsOk (ain : Ain) :
    (∀ vars item, itemHasFunDecl item = false → itemDeclsOk item = true →
        ∃ r, blockItemGetVars ain vars item = .ok r) ∧
    (∀ vars items, listHasFunDecl items = false → listDeclsOk items = true →
        ∃ r, blockGetVars ain vars items = .ok r) := by
  refine blockItemGetVars.mutual_induct ain
    (fun vars item => itemHasFunDecl item = false → itemDeclsOk item = true →
        ∃ r, blockItemGetVars ain vars item = .ok r)
    (fun vars items => listHasFunDecl items = false → listDeclsOk items = true →
        ∃ r, blockGetVars ain vars items = .ok r)
    ?_ ?_ ?_ ?_ ?_ ?_ ?_ ?_ ?_ ?_ ?_ ?_ ?_ ?_ ?_ ?_ ?_ ?_ ?_
  · intro vars d hname _ _
    exact ⟨_, by simp [blockItemGetVars, hname]; rfl⟩
  · intro vars d n hname _ h2
    simp only [itemDeclsOk, hname] at h2
    cases ht : jafToAinDataType d.typeSpec.tag with
    | error er => rw [typeEncodable, ht] at h2; exact Bool.noConfusion h2
    | ok dtt =>
        have hip : ∃ v, initVariable ain d (Int.ofNat vars.length) =
            .ok (v, d.withVarNo (Int.ofNat vars.length)) :=
          ⟨_, by simp only [initVariable, hname, jafToAinType, ht, exceptBind_ok]; rfl⟩
        obtain ⟨v, hiv⟩ := hip
        refine ⟨(vars ++ [v], .declaration (d.withVarNo (Int.ofNat vars.length))), ?_⟩
        simp only [blockItemGetVars, hname]
        rw [hiv]
        rfl
  · intro vars s ih h1 h2
    simp only [itemHasFunDecl] at h1
    simp only [itemDeclsOk] at h2
    obtain ⟨⟨v, s'⟩, hr⟩ := ih h1 h2
    exact ⟨_, by simp [blockItemGetVars, hr]; rfl⟩
  · intro vars items ih h1 h2
    simp only [itemHasFunDecl] at h1
    simp only [itemDeclsOk] at h2
    obtain ⟨⟨v, items'⟩, hr⟩ := ih h1 h2
    exact ⟨_, by simp [blockItemGetVars, hr]; rfl⟩
  · intro vars t c alt ih1 ih2 h1 h2
    simp only [itemHasFunDecl, Bool.or_eq_false_iff] at h1
    simp only [itemDeclsOk, Bool.and_eq_true] at h2
    obtain ⟨⟨v1, c'⟩, hr1⟩ := ih1 h1.1 h2.1
    obtain ⟨⟨v2, alt'⟩, hr2⟩ := ih2 v1 h1.2 h2.2
    exact ⟨_, by simp [blockItemGetVars, hr1, hr2]; rfl⟩
  · intro vars e items ih h1 h2
    simp only [itemHasFunDecl] at h1
    simp only [itemDeclsOk] at h2
    obtain ⟨⟨v, items'⟩, hr⟩ := ih h1 h2
    exact ⟨_, by simp [blockItemGetVars, hr]; rfl⟩
  · intro vars t body ih h1 h2
    simp only [itemHasFunDecl] at h1
    simp only [itemDeclsOk] at h2
    obtain ⟨⟨v, b'⟩, hr⟩ := ih h1 h2
    exact ⟨_, by simp [blockItemGetVars, hr]; rfl⟩
  · intro vars t body ih h1 h2
    simp only [itemHasFunDecl] at h1
    simp only [itemDeclsOk] at h2
    obtain ⟨⟨v, b'⟩, hr⟩ := ih h1 h2
    exact ⟨_, by simp [blockItemGetVars, hr]; rfl⟩
  · intro vars finit t aft body ih1 ih2 h1 h2
    simp only [itemHasFunDecl, Bool.or_eq_false_iff] at h1
    simp only [itemDeclsOk, Bool.and_eq_true] at h2
    obtain ⟨⟨v1, finit'⟩, hr1⟩ := ih1 h1.1 h2.1
    obtain ⟨⟨v2, b'⟩, hr2⟩ := ih2 v1 h1.2 h2.2
    exact ⟨_, by simp [blockItemGetVars, hr1, hr2]; rfl⟩
  · intro vars e s ih h1 h2
    simp only [itemHasFunDecl] at h1
    simp only [itemDeclsOk] at h2
    obtain ⟨⟨v, s'⟩, hr⟩ := ih h1 h2
    exact ⟨_, by simp [blockItemGetVars, hr]; rfl⟩
  · intro vars s ih h1 h2
    simp only [itemHasFunDecl] at h1
    simp only [itemDeclsOk] at h2
    obtain ⟨⟨v, s'⟩, hr⟩ := ih h1 h2
    exact ⟨_, by simp [blockItemGetVars, hr]; rfl⟩
  · intro vars e _ _
    exact ⟨_, by simp [blockItemGetVars]; rfl⟩
  · intro vars _ _
    exact ⟨_, by simp [blockItemGetVars]; rfl⟩
  · intro vars _ _
    exact ⟨_, by simp [blockItemGetVars]; rfl⟩
  · intro vars _ _
    exact ⟨_, by simp [blockItemGetVars]; rfl⟩
  · intro vars e _ _
    exact ⟨_, by simp [blockItemGetVars]; rfl⟩
  · intro vars d h1 _
    exact Bool.noConfusion h1
  · intro vars _ _
    exact ⟨_, by simp [blockGetVars]; rfl⟩
  · intro vars item rest ih1 ih2 h1 h2
    simp only [listHasFunDecl, Bool.or_eq_false_iff] at h1
    simp only [listDeclsOk, Bool.and_eq_true] at h2
    obtain ⟨⟨v1, item'⟩, hr1⟩ := ih1 h1.1 h2.1
    obtain ⟨⟨v2, rest'⟩, hr2⟩ := ih2 v1 h1.2 h2.2
    exact ⟨_, by simp [blockGetVars, hr1, hr2]; rfl⟩

theorem getVarsNested (ain : Ain) :
    (∀ vars item, itemHasFunDecl item = true → itemDeclsOk item = true →
        blockItemGetVars ain vars item = .error .nestedFunctionsNotSupported) ∧
    (∀ vars items, listHasFunDecl items = true → listDeclsOk items = true →
        blockGetVars ain vars items = .error .nestedFunctionsNotSupported) := by
  refine blockItemGetVars.mutual_induct ain
    (fun vars item => itemHasFunDecl item = true → itemDeclsOk item = true →
        blockItemGetVars ain vars item = .error .nestedFunctionsNotSupported)
    (fun vars items => listHasFunDecl items = true → listDeclsOk items = true →
        blockGetVars ain vars items = .error .nestedFunctionsNotSupported)
    ?_ ?_ ?_ ?_ ?_ ?_ ?_ ?_ ?_ ?_ ?_ ?_ ?_ ?_ ?_ ?_ ?_ ?_ ?_
  · intro vars d _ h1 _
    exact Bool.noConfusion h1
  · intro vars d n _ h1 _
    exact Bool.noConfusion h1
  · intro vars s ih h1 h2
    simp only [itemHasFunDecl] at h1
    simp only [itemDeclsOk] at h2
    simp [blockItemGetVars, ih h1 h2]
  · intro vars items ih h1 h2
    simp only [itemHasFunDecl] at h1
    simp only [itemDeclsOk] at h2
    simp [blockItemGetVars, ih h1 h2]
  · intro vars t c alt ih1 ih2 h1 h2
    simp only [itemDeclsOk, Bool.and_eq_true] at h2
    cases hc : itemHasFunDecl c with
    | true => simp [blockItemGetVars, ih1 hc h2.1]
    | false =>
        simp only [itemHasFunDecl, hc, Bool.false_or] at h1
        obtain ⟨⟨v1, c'⟩, hr1⟩ := (getVarsOk ain).1 vars c hc h2.1
        simp [blockItemGetVars, hr1, ih2 v1 h1 h2.2]
  · intro vars e items ih h1 h2
    simp only [itemHasFunDecl] at h1
    simp only [itemDeclsOk] at h2
    simp [blockItemGetVars, ih h1 h2]
  · intro vars t body ih h1 h2
    simp only [itemHasFunDecl] at h1
    simp only [itemDeclsOk] at h2
    simp [blockItemGetVars, ih h1 h2]
  · intro vars t body ih h1 h2
    simp only [itemHasFunDecl] at h1
    simp only [itemDeclsOk] at h2
    simp [blockItemGetVars, ih h1 h2]
  · intro vars finit t aft body ih1 ih2 h1 h2
    simp only [itemDeclsOk, Bool.and_eq_true] at h2
    cases hc : listHasFunDecl finit with
    | true => simp [blockItemGetVars, ih1 hc h2.1]
    | false =>
        simp only [itemHasFunDecl, hc, Bool.false_or] at h1
        obtain ⟨⟨v1, finit'⟩, hr1⟩ := (getVarsOk ain).2 vars finit hc h2.1
        simp [blockItemGetVars, hr1, ih2 v1 h1 h2.2]
  · intro vars e s ih h1 h2
    simp only [itemHasFunDecl] at h1
    simp only [itemDeclsOk] at h2
    simp [blockItemGetVars, ih h1 h2]
  · intro vars s ih h1 h2
    simp only [itemHasFunDecl] at h1
    simp only [itemDeclsOk] at h2
    simp [blockItemGetVars, ih h1 h2]
  · intro vars e h1 _
    exact Bool.noConfusion h1
  · intro vars h1 _
    exact Bool.noConfusion h1
  · intro vars h1 _
    exact Bool.noConfusion h1
  · intro vars h1 _
    exact Bool.noConfusion h1
  · intro vars e h1 _
    exact Bool.noConfusion h1
  · intro vars d _ _
    simp [blockItemGetVars]
  · intro vars h1 _
    exact Bool.noConfusion h1
  · intro vars item rest ih1 ih2 h1 h2
    simp only [listDeclsOk, Bool.and_eq_true] at h2
    cases hc : itemHasFunDecl item with
    | true => simp [blockGetVars, ih1 hc h2.1]
    | false =>
        simp only [listHasFunDecl, hc, Bool.false_or] at h1
        obtain ⟨⟨v1, item'⟩, hr1⟩ := (getVarsOk ain).1 vars item hc h2.1
        simp [blockGetVars, hr1, ih2 v1 h1 h2.2]

/-- C8: a function declaration appearing anywhere inside a statement at a
depth reachable through labeled statements, compound blocks, if branches,
switch bodies, while / do-while / for bodies, for-init lists and
case / default statements makes local-variable collection fail with the fatal
nested-functions error (provided the named declarations encountered carry
representable types, so that no other fatal error fires first). -/
theorem claimC8 (ain : Ain) (item : JafBlockItem)
    (h1 : itemHasFunDecl item = true) (h2 : itemDeclsOk item = true)
    (vars : List AinVariable) :
    blockItemGetVars ain vars item = .error .nestedFunctionsNotSupported :=
  (getVarsNested ain).1 vars item h1 h2

/-- Witness for C8: the body block of `int g() { void h() {} }` — a compound
statement containing the nested declaration of `h` — is rejected by
local-variable collection with the nested-functions error. -/
theorem claimC8_witness :
    blockItemGetVars ainEmpty []
      (.compound [.fundecl (.mk (some ("h")) (.mk .void none none 0) (some [])
          (some []) none (-1) (-1))]) =
      .error .nestedFunctionsNotSupported :=
  claimC8 ainEmpty
    (.compound [.fundecl (.mk (some ("h")) (.mk .void none none 0) (some [])
        (some []) none (-1) (-1))]) rfl rfl []

/-- Witness for C1 at `string f(int n) { return n; }`: the single parameter
variable occupies the prefix, its recorded slot index list is `[0]`, and the
combined slot-index list of parameters and body locals is `0 .. nr_vars-1`. -/
theorem claimC1_witness :
    ∃ paramVars bodyVars params2,
      ([{ name := ("n"), name2 := none, type := { data := .int, struc := 0 } }] :
        List AinVariable) = paramVars ++ bodyVars ∧
      paramVars.length = 1 ∧
      paramInitVars ainEmpty 0 (fDeclString.params.getD []) =
        .ok (paramVars, params2) ∧
      declVarNosList params2 = natRangeI 0 1 ∧
      declVarNosList ((some [JafBlockItem.returnStmt
          (some (.ident ("n")))]).getD []) = natRangeI 1 bodyVars.length ∧
      declVarNosList params2 ++ declVarNosList ((some [JafBlockItem.returnStmt
          (some (.ident ("n")))]).getD []) = natRangeI 0 1 :=
  (claimC1 ainEmpty
    { name := ("f"), returnType := { data := .string, struc := 0 },
      nrArgs := 0, vars := [] }
    { name := ("f"), returnType := { data := .string, struc := 0 }, nrArgs := 1,
      vars := [{ name := ("n"), name2 := none,
                 type := { data := .int, struc := 0 } }] }
    fDeclString
    (JafDeclaration.mk (some ("f")) (.mk .string none none 0)
      (some [JafBlockItem.declaration
        (.mk (some ("n")) (.mk .int none none 0) none none none 0 (-1))])
      (some [JafBlockItem.returnStmt (some (.ident ("n")))]) none (-1) (-1))
    rfl).2

theorem paramInitVars_unnamed :
    ∀ (pre : List JafBlockItem) (ain : Ain) (idx : Nat) (dU : JafDeclaration)
      (rest : List JafBlockItem), paramsOk pre = true → dU.name = none →
      paramInitVars ain idx (pre ++ .declaration dU :: rest) =
        .error .unnamedParameter := by
  intro pre
  induction pre with
  | nil =>
      intro ain idx dU rest _ hU
      simp only [List.nil_append, paramInitVars, hU]
  | cons p pre' ih =>
      intro ain idx dU rest hok hU
      cases p with
      | declaration d =>
          simp only [paramsOk, List.all_cons, Bool.and_eq_true, paramItemOk] at hok
          obtain ⟨⟨hnsome, henc⟩, hrest⟩ := hok
          obtain ⟨n, hn⟩ := Option.isSome_iff_exists.mp hnsome
          cases ht : jafToAinDataType d.typeSpec.tag with
          | error er => rw [typeEncodable, ht] at henc; exact Bool.noConfusion henc
          | ok dtt =>
              have hiv : ∃ v, initVariable ain d (Int.ofNat idx) =
                  .ok (v, d.withVarNo (Int.ofNat idx)) :=
                ⟨_, by simp only [initVariable, hn, jafToAinType, ht, exceptBind_ok]; rfl⟩
              obtain ⟨v, hivr⟩ := hiv
              have hres := ih ain (idx + 1) dU rest hrest hU
              simp only [List.cons_append, paramInitVars, hn]
              rw [hivr]
              simp only [exceptBind_ok, List.append_eq]
              rw [hres]
              rfl
      | fundecl d => simp [paramsOk, paramItemOk] at hok
      | labeled s => simp [paramsOk, paramItemOk] at hok
      | compound b => simp [paramsOk, paramItemOk] at hok
      | exprStmt e => simp [paramsOk, paramItemOk] at hok
      | ifStmt a b c => simp [paramsOk, paramItemOk] at hok
      | switchStmt a b => simp [paramsOk, paramItemOk] at hok
      | whileStmt a b => simp [paramsOk, paramItemOk] at hok
      | doWhileStmt a b => simp [paramsOk, paramItemOk] at hok
      | forStmt a b c d => simp [paramsOk, paramItemOk] at hok
      | returnStmt e => simp [paramsOk, paramItemOk] at hok
      | caseStmt a b => simp [paramsOk, paramItemOk] at hok
      | defaultStmt a => simp [paramsOk, paramItemOk] at hok
      | gotoStmt => simp [paramsOk, paramItemOk] at hok
      | continueStmt => simp [paramsOk, paramItemOk] at hok
      | breakStmt => simp [paramsOk, paramItemOk] at hok

/-- C9: processing a function declaration whose parameter list contains an
unnamed parameter (after well-formed named parameters) is a fatal
unnamed-parameter error in `function_init_vars` — the source enforces the
name with an assertion before building the parameter's variable slot. -/
theorem claimC9 (ain : Ain) (f0 : AinFunction) (decl : JafDeclaration)
    (pre rest : List JafBlockItem) (dU : JafDeclaration)
    (hp : decl.params = some (pre ++ .declaration dU :: rest))
    (hpre : paramsOk pre = true) (hU : dU.name = none) :
    functionInitVars ain f0 decl = .error .unnamedParameter := by
  cases decl with
  | mk dn dts dps db di dv df =>
      simp only [JafDeclaration.params] at hp
      subst hp
      simp only [functionInitVars, Option.getD_some]
      rw [paramInitVars_unnamed pre ain 0 dU rest hpre hU]
      rfl

/-- Witness for C9: `void g(int n, float)` — the second, unnamed parameter —
fails with the unnamed-parameter error. -/
theorem claimC9_witness :
    functionInitVars ainEmpty
      { name := ("g"), returnType := { data := .void, struc := 0 },
        nrArgs := 0, vars := [] }
      (.mk (some ("g")) (.mk .void none none 0)
        (some [.declaration (.mk (some ("n")) (.mk .int none none 0)
                  none none none (-1) (-1)),
               .declaration (.mk none (.mk .float none none 0)
                  none none none (-1) (-1))])
        (some []) none (-1) (-1)) = .error .unnamedParameter :=
  claimC9 ainEmpty
    { name := ("g"), returnType := { data := .void, struc := 0 },
      nrArgs := 0, vars := [] }
    (.mk (some ("g")) (.mk .void none none 0)
      (some [.declaration (.mk (some ("n")) (.mk .int none none 0)
                none none none (-1) (-1)),
             .declaration (.mk none (.mk .float none none 0)
                none none none (-1) (-1))])
      (some []) none (-1) (-1))
    [.declaration (.mk (some ("n")) (.mk .int none none 0) none none none (-1) (-1))]
    [] (.mk none (.mk .float none none 0) none none none (-1) (-1))
    rfl rfl rfl

/-- C10: the environment created for a for statement's init block is
discarded before the test, the after expression and the body are analyzed:
those three are analyzed in the enclosing environment, where a variable
declared in the for-init list is not bound — its reference there fails as an
undefined variable — while the same declaration followed by the same
reference inside one compound block succeeds. -/
theorem claimC10 (ain : Ain) (env : JafEnv) (d : JafDeclaration) (n : String)
    (hf : 0 ≤ env.funcNo ∧ env.funcNo.toNat < ain.functions.length)
    (hv : 0 ≤ d.varNo ∧ d.varNo.toNat <
        (ain.functions.get ⟨env.funcNo.toNat, hf.2⟩).vars.length)
    (hname : ((ain.functions.get ⟨env.funcNo.toNat, hf.2⟩).vars.get
        ⟨d.varNo.toNat, hv.2⟩).name = n)
    (hlook : envLookup env n = none) :
    analyzeStatement ain env
        (.forStmt [.declaration d] (some (.ident n)) none .breakStmt) =
      .error (.undefinedVariable n) ∧
    analyzeStatement ain env
        (.forStmt [.declaration d] none (some (.ident n)) .breakStmt) =
      .error (.undefinedVariable n) ∧
    analyzeStatement ain env
        (.forStmt [.declaration d] none none (.exprStmt (some (.ident n)))) =
      .error (.undefinedVariable n) ∧
    analyzeStatement ain env
        (.compound [.declaration d, .exprStmt (some (.ident n))]) =
      .ok (ain, env) := by
  obtain ⟨par, fno, fd, lcl⟩ := env
  simp only [JafEnv.funcNo, JafEnv.fundecl, JafEnv.locals] at hf hv hname hlook ⊢
  have hld : analyzeLocalDeclaration ain
      (JafEnv.mk (some (.mk par fno fd lcl)) fno fd []) d =
      .ok (ain, JafEnv.mk (some (.mk par fno fd lcl)) fno fd
        [(ain.functions.get ⟨fno.toNat, hf.2⟩).vars.get ⟨d.varNo.toNat, hv.2⟩]) := by
    rw [analyzeLocalDeclaration]
    simp only [JafEnv.funcNo, JafEnv.locals, JafEnv.withLocals]
    rw [dif_pos hf, dif_pos hv]
    rfl
  have h1 : jafAnalyzeBlock ain (JafEnv.mk (some (.mk par fno fd lcl)) fno fd [])
      [.declaration d] =
      .ok (ain, JafEnv.mk (some (.mk par fno fd lcl)) fno fd
        [(ain.functions.get ⟨fno.toNat, hf.2⟩).vars.get ⟨d.varNo.toNat, hv.2⟩]) := by
    simp only [jafAnalyzeBlock, analyzeStatement, JafEnv.parent]
    rw [hld]
    simp only [exceptBind_ok]
  have hdnone : analyzeExpression (JafEnv.mk par fno fd lcl) none =
      .ok none := rfl
  have hderr : analyzeExpression (JafEnv.mk par fno fd lcl)
      (some (.ident n)) = .error (.undefinedVariable n) := by
    simp only [analyzeExpression, analyzeExpressionCore, jafDeriveTypes, hlook]
    rfl
  refine ⟨?_, ?_, ?_, ?_⟩
  · simp only [analyzeStatement, JafEnv.funcNo, JafEnv.fundecl]
    rw [h1]
    simp only [exceptBind_ok]
    rw [hderr]
    simp only [exceptBind_error]
  · simp only [analyzeStatement, JafEnv.funcNo, JafEnv.fundecl]
    rw [h1]
    simp only [exceptBind_ok]
    rw [hdnone]
    simp only [exceptBind_ok]
    rw [hderr]
    simp only [exceptBind_error]
  · simp only [analyzeStatement, JafEnv.funcNo, JafEnv.fundecl]
    rw [h1]
    simp only [exceptBind_ok]
    rw [hdnone]
    simp only [exceptBind_ok]
    rw [hderr]
    simp only [exceptBind_error]
  · have hd2 : analyzeExpression
        (JafEnv.mk (some (.mk par fno fd lcl)) fno fd
          [(ain.functions.get ⟨fno.toNat, hf.2⟩).vars.get ⟨d.varNo.toNat, hv.2⟩])
        (some (.ident n)) = .ok (some (.ident n)) := by
      have hname2 := hname
      simp only [List.get_eq_getElem] at hname2
      simp [analyzeExpression, analyzeExpressionCore, jafDeriveTypes,
        envLookup, findVar, hname2, jafSimplify]
    simp only [analyzeStatement, jafAnalyzeBlock, JafEnv.parent, JafEnv.funcNo,
      JafEnv.fundecl]
    rw [hld]
    simp only [exceptBind_ok]
    rw [hd2]
    simp only [exceptBind_ok]

/-- Witness for C10: with one function `g` owning slot 0 named `i` and a
function environment where `i` is unbound, `for (int i; i; ) ;` and its
after- and body-reference variants all fail with an undefined-variable error
for `i`, while `{ int i; i; }` succeeds. -/
theorem claimC10_witness :
    analyzeStatement ainOneFunc envFunc0
      (.forStmt [.declaration iDecl] (some (.ident ("i"))) none .breakStmt) =
      .error (.undefinedVariable ("i")) ∧
    analyzeStatement ainOneFunc envFunc0
      (.forStmt [.declaration iDecl] none (some (.ident ("i"))) .breakStmt) =
      .error (.undefinedVariable ("i")) ∧
    analyzeStatement ainOneFunc envFunc0
      (.forStmt [.declaration iDecl] none none (.exprStmt (some (.ident ("i"))))) =
      .error (.undefinedVariable ("i")) ∧
    analyzeStatement ainOneFunc envFunc0
      (.compound [.declaration iDecl, .exprStmt (some (.ident ("i")))]) =
      .ok (ainOneFunc, envFunc0) :=
  claimC10 ainOneFunc envFunc0 iDecl ("i") (by decide) (by decide) rfl rfl
